import Mathlib

/-!
Encrypted rotating beacon (`src/main.c`): shallow embedding.

The firmware's application file is embedded as pure functions over an explicit
`State` record that holds the file-scope variables of `main.c`, the `static`
locals of its handlers, the state of the external configuration store, and a
log of the calls made into the external layers (advertising, UART, NUS).

Conventions of the embedding:

* bytes and machine integers are `Nat`; `uint32_t`/`uint16_t` arithmetic that can
  overflow is reduced modulo `2^32`/`2^16` where the C code performs it;
* byte arrays are lists; `memcpy`/`memset` store element by element; a store
  beyond the end of the destination is undefined behaviour in C and has no effect
  in the model, so results are meaningful for executions that stay in bounds
  (`nusInBounds`, `runInBounds` for the unchecked copy of `nus_data_handler`);
* functions declared in headers that are not part of `main.c`
  (`encrypt_128bit_uuid`, `atcmd_parse`, `atcmd_get_ok`, `atcmd_get_nack`,
  `config_hdlr_get_string`) and the constants `PSTORE_MAX_BLOCK`,
  `APP_ATCMD_MAX_DATA_LEN` are fields of the environment `Env`;
* SoftDevice/BSP calls are assumed to return `NRF_SUCCESS`, so every
  `APP_ERROR_CHECK` on them passes; LED indications are not modelled; where a
  handler reaches `APP_ERROR_HANDLER` the call is logged and the state is kept.
-/

namespace Beacon

/-! ## C library helpers -/

/-- C `memcpy(dst + off, src, n)` with `n` the length of `src`: the bytes of `src`
are stored at `dst[off], dst[off+1], ...`. -/
def memcpy (dst : List Nat) (off : Nat) : List Nat → List Nat
  | [] => dst
  | b :: rest => memcpy (dst.set off b) (off + 1) rest

/-- C `memset(dst, v, n)`. -/
def memset (dst : List Nat) (v n : Nat) : List Nat :=
  memcpy dst 0 (List.replicate n v)

/-- The C string stored at the start of a buffer: the bytes before the first NUL. -/
def cstr (buf : List Nat) : List Nat :=
  buf.takeWhile (fun b => b != 0)

/-- C `strlen`. -/
def strlen (buf : List Nat) : Nat :=
  (cstr buf).length

/-- C `strcpy(dst, src)`: the string at `src` and its terminating NUL. -/
def strcpy (dst src : List Nat) : List Nat :=
  memcpy dst 0 (cstr src ++ [0])

/-- The object representation of a `uint32_t` on the (little-endian) target:
what `memcpy(_, &c, sizeof c)` copies. -/
def le32 (c : Nat) : List Nat :=
  [c % 256, c / 256 % 256, c / 65536 % 256, c / 16777216 % 256]

/-- A 32-bit value read from four bytes in native (little-endian) order. -/
def read32 (b : List Nat) (off : Nat) : Nat :=
  b.getD off 0 + 256 * b.getD (off + 1) 0 + 65536 * b.getD (off + 2) 0
    + 16777216 * b.getD (off + 3) 0

/-! ## Constants of `main.c` -/

def APP_BEACON_INFO_LENGTH : Nat := 0x17
def APP_ADV_DATA_LENGTH : Nat := 0x15
def APP_DEVICE_TYPE : Nat := 0x02
def APP_MEASURED_RSSI : Nat := 0xC3
def APP_MAJOR_VALUE : List Nat := [0x01, 0x02]
def APP_MINOR_VALUE : List Nat := [0x03, 0x04]
def APP_BEACON_UUID : List Nat := List.replicate 16 0x00
def APP_AES_LENGTH : Nat := 0x10
def APP_ADV_TIMEOUT_IN_SECONDS : Nat := 0
def APP_ADV_NUS_TIMEOUT_IN_SECONDS : Nat := 60
def BLE_CONN_HANDLE_INVALID : Nat := 0xFFFF
def NRF_SUCCESS : Nat := 0
def NRF_ERROR_INVALID_STATE : Nat := 8

/-- The initialiser of `m_beacon_info`. -/
def m_beacon_info_init : List Nat :=
  [APP_DEVICE_TYPE, APP_ADV_DATA_LENGTH] ++ APP_BEACON_UUID ++ APP_MAJOR_VALUE
    ++ APP_MINOR_VALUE ++ [APP_MEASURED_RSSI]

/-- The counter field of an advertising payload: bytes 18..21 as a 32-bit value. -/
def counterField (payload : List Nat) : Nat :=
  read32 payload 18

/-! ## External interfaces -/

/-- The result of `atcmd_parse`: the three actions `execute_atcmd` switches on, and
every other return value. -/
inductive AtcmdAct where
  | APP_ATCMD_ACT_CONFIG_GET
  | APP_ATCMD_ACT_CONFIG_SET
  | APP_ATCMD_ACT_CONFIG_GET_VER
  | other (code : Nat)
  deriving DecidableEq, Repr

/-- Calls made into the external layers, in program order. -/
inductive Output where
  | nus_advertising_init
  | ble_advertising_init (p_data : List Nat) (size : Nat) (fast_timeout : Nat)
  | ble_advdata_set (p_data : List Nat) (size : Nat)
  | ble_advertising_start
  | uart_reply_string (str : List Nat)
  | ble_nus_string_send (str : List Nat) (length : Nat)
  | sd_ble_gap_disconnect
  | ble_advertising_restart_without_whitelist
  | app_error_handler
  deriving DecidableEq, Repr

/-- The parts of the firmware that `main.c` only calls. `X` is the state of the
configuration store behind `atcmd_parse` and `config_hdlr_get_string`. -/
structure Env (X : Type) where
  PSTORE_MAX_BLOCK : Nat
  APP_ATCMD_MAX_DATA_LEN : Nat
  /-- The bytes `encrypt_128bit_uuid(uuid, key, out, counter)` stores at `out`. -/
  encrypt_128bit_uuid : List Nat → List Nat → Nat → List Nat
  /-- The cipher output is one AES block. -/
  encrypt_size : ∀ uuid key counter,
    (encrypt_128bit_uuid uuid key counter).length = APP_AES_LENGTH
  /-- The action `atcmd_parse(index, data)` returns, and the store it leaves. -/
  atcmd_parse : X → Nat → List Nat → AtcmdAct × X
  /-- The string `atcmd_get_ok()` points to. -/
  atcmd_get_ok : List Nat
  /-- The string `atcmd_get_nack()` points to. -/
  atcmd_get_nack : List Nat
  /-- The lookup `config_hdlr_get_string(tag, &size, buf)`: `none` when it returns
  false, `some v` when it returns true having stored the C string `v` in `buf`. -/
  config_hdlr_get_string : X → List Nat → Option (List Nat)

/-- Events of `app_uart`. -/
inductive AppUartEvt where
  | APP_UART_DATA_READY (byte : Nat)
  | APP_UART_COMMUNICATION_ERROR
  | APP_UART_FIFO_ERROR
  | other
  deriving DecidableEq, Repr

/-- Advertising module events. -/
inductive BleAdvEvt where
  | BLE_ADV_EVT_FAST
  | BLE_ADV_EVT_IDLE
  | other
  deriving DecidableEq, Repr

/-- BLE stack events seen by `on_ble_evt`. -/
inductive BleEvt where
  | BLE_GAP_EVT_CONNECTED (conn_handle : Nat)
  | BLE_GAP_EVT_DISCONNECTED
  | other
  deriving DecidableEq, Repr

/-- Board support events seen by `bsp_event_handler`. -/
inductive BspEvent where
  | BSP_EVENT_SLEEP
  | BSP_EVENT_DISCONNECT
  | BSP_EVENT_WHITELIST_OFF
  | other
  deriving DecidableEq, Repr

/-! ## Program state -/

/-- File-scope variables of `main.c`, the `static` locals of its handlers, the
external store and the output log. -/
structure State (X : Type) where
  m_conn_handle : Nat
  m_beacon_info : List Nat
  m_aes128_key : List Nat
  m_beacon_uuid : List Nat
  m_adv_reinit : Nat
  m_counter_ticks : Nat
  m_atcmd_resp_str : List Nat
  m_ble_data_src : List Nat
  /-- Static `data_array` of `uart_event_handle`. -/
  data_array : List Nat
  /-- Static `index` of `uart_event_handle`. -/
  index : Nat
  /-- Static `loop` of `SWI1_IRQHandler`. -/
  loop : Nat
  ext : X
  out : List Output

/-! ## Advertising payload operations -/

variable {X : Type}

/-- Function `advertising_init`: the cipher is run with the literal counter `0` into
`m_beacon_info[2..17]`, and the payload is handed to `ble_advertising_init`. -/
def advertising_init (env : Env X) (s : State X) : State X :=
  let info := memcpy s.m_beacon_info 2
    (env.encrypt_128bit_uuid s.m_beacon_uuid s.m_aes128_key 0)
  { s with
    m_beacon_info := info
    out := s.out ++
      [Output.ble_advertising_init info APP_BEACON_INFO_LENGTH APP_ADV_TIMEOUT_IN_SECONDS] }

/-- Function `advertising_reinit`: the rotation. The cipher is run with `m_counter_ticks`
into `m_beacon_info[2..17]`, the counter is copied to `m_beacon_info[18..21]`, the
counter is incremented, and the payload is handed to `ble_advdata_set`. -/
def advertising_reinit (env : Env X) (s : State X) : State X :=
  let info1 := memcpy s.m_beacon_info 2
    (env.encrypt_128bit_uuid s.m_beacon_uuid s.m_aes128_key s.m_counter_ticks)
  let info2 := memcpy info1 18 (le32 s.m_counter_ticks)
  { s with
    m_beacon_info := info2
    m_counter_ticks := (s.m_counter_ticks + 1) % 4294967296
    out := s.out ++ [Output.ble_advdata_set info2 APP_BEACON_INFO_LENGTH] }

/-- Function `sleep_mode_enter`: one rotation, then advertising is started. -/
def sleep_mode_enter (env : Env X) (s : State X) : State X :=
  let s1 := advertising_reinit env s
  { s1 with out := s1.out ++ [Output.ble_advertising_start] }

/-- Function `on_adv_evt`: on the idle event the payload is rebuilt through
`advertising_init`, advertising is started and the rotating flag is set. -/
def on_adv_evt (env : Env X) (ble_adv_evt : BleAdvEvt) (s : State X) : State X :=
  match ble_adv_evt with
  | BleAdvEvt.BLE_ADV_EVT_FAST => s
  | BleAdvEvt.BLE_ADV_EVT_IDLE =>
    let s1 := advertising_init env s
    { s1 with
      out := s1.out ++ [Output.ble_advertising_start]
      m_adv_reinit := 1 }
  | BleAdvEvt.other => s

/-- Function `on_ble_evt`: keeps the connection handle. -/
def on_ble_evt (p_ble_evt : BleEvt) (s : State X) : State X :=
  match p_ble_evt with
  | BleEvt.BLE_GAP_EVT_CONNECTED conn_handle => { s with m_conn_handle := conn_handle }
  | BleEvt.BLE_GAP_EVT_DISCONNECTED => { s with m_conn_handle := BLE_CONN_HANDLE_INVALID }
  | BleEvt.other => s

/-- Function `bsp_event_handler`. -/
def bsp_event_handler (env : Env X) (event : BspEvent) (s : State X) : State X :=
  match event with
  | BspEvent.BSP_EVENT_SLEEP => sleep_mode_enter env s
  | BspEvent.BSP_EVENT_DISCONNECT => { s with out := s.out ++ [Output.sd_ble_gap_disconnect] }
  | BspEvent.BSP_EVENT_WHITELIST_OFF =>
    { s with out := s.out ++ [Output.ble_advertising_restart_without_whitelist] }
  | BspEvent.other => s

/-- Function `SWI1_IRQHandler`: the radio notification handler with its down-counter. -/
def SWI1_IRQHandler (env : Env X) (radio_evt : Bool) (s : State X) : State X :=
  if radio_evt then
    if s.loop = 0 then
      let s1 := { s with loop := 10 }
      if s1.m_adv_reinit ≠ 0 then advertising_reinit env s1 else s1
    else { s with loop := s.loop - 1 }
  else s

/-! ## Command protocol -/

/-- The tag looked up by `CONFIG_GET_VER` (the bytes of the C literal for vers). -/
def tag_vers : List Nat := [118, 101, 114, 115]

/-- The bytes of the C literal for NUL (three letters). -/
def str_NUL : List Nat := [78, 85, 76]

/-- Function `execute_atcmd(index, data_array, p_resp_str)`: returns the store left by the
parser and the contents of the response buffer. -/
def execute_atcmd (env : Env X) (x : X) (index : Nat) (data_array : List Nat)
    (p_resp_str : List Nat) : X × List Nat :=
  let datastr0 : List Nat := List.replicate 16 0
  let resp := memset p_resp_str 0 (env.PSTORE_MAX_BLOCK + 1)
  let parsed := env.atcmd_parse x index data_array
  match parsed.1 with
  | AtcmdAct.APP_ATCMD_ACT_CONFIG_GET =>
    (parsed.2, memcpy resp 0 (env.atcmd_get_ok.take (strlen env.atcmd_get_ok)))
  | AtcmdAct.APP_ATCMD_ACT_CONFIG_SET =>
    (parsed.2, memcpy resp 0 (env.atcmd_get_ok.take (strlen env.atcmd_get_ok)))
  | AtcmdAct.APP_ATCMD_ACT_CONFIG_GET_VER =>
    let datastr :=
      match env.config_hdlr_get_string parsed.2 tag_vers with
      | some v => strcpy datastr0 v
      | none => strcpy datastr0 str_NUL
    (parsed.2, memcpy resp 0 (datastr.take (strlen datastr)))
  | AtcmdAct.other _ =>
    (parsed.2, memcpy resp 0 (env.atcmd_get_nack.take (strlen env.atcmd_get_nack)))

/-- Function `uart_event_handle`: `byte` is what `app_uart_get` stores at
`data_array[index]`; the reply logged is the C string in the response buffer. -/
def uart_event_handle (env : Env X) (p_event : AppUartEvt) (s : State X) : State X :=
  match p_event with
  | AppUartEvt.APP_UART_DATA_READY byte =>
    let data := s.data_array.set s.index byte
    let index := (s.index + 1) % 65536
    if data.getD (index - 1) 0 = 13 ∨ index ≥ env.APP_ATCMD_MAX_DATA_LEN then
      let r := execute_atcmd env s.ext index data s.m_atcmd_resp_str
      let resp := r.2.set (strlen r.2) 10
      { s with
        data_array := data
        ext := r.1
        m_atcmd_resp_str := resp
        out := s.out ++ [Output.uart_reply_string (cstr resp)]
        index := 0 }
    else { s with data_array := data, index := index }
  | AppUartEvt.APP_UART_COMMUNICATION_ERROR =>
    { s with out := s.out ++ [Output.app_error_handler] }
  | AppUartEvt.APP_UART_FIFO_ERROR =>
    { s with out := s.out ++ [Output.app_error_handler] }
  | AppUartEvt.other => s

/-- Function `nus_data_handler(p_nus, p_data, length)` with `length` the length of
`p_data`; `err_code` is the value `ble_nus_string_send` returns. The C code copies
without a bound check and, for `length = 0` on an empty buffer, reads
`m_ble_data_src[-1]`; the model drops the stores past the end and reads index 0 there.
Model and code agree on the deliveries that stay inside the buffer (`nusInBounds`),
and statements about the code are made for those deliveries. -/
def nus_data_handler (env : Env X) (p_data : List Nat) (err_code : Nat) (s : State X) :
    State X :=
  let cur_len := strlen s.m_ble_data_src % 65536
  let src1 := memcpy s.m_ble_data_src cur_len p_data
  let length := (p_data.length + cur_len) % 65536
  let src2 := if src1.getD (length - 1) 0 = 59 then src1.set (length - 1) 13 else src1
  if src2.getD (length - 1) 0 ≠ 13 then { s with m_ble_data_src := src2 }
  else
    let r := execute_atcmd env s.ext length src2 s.m_atcmd_resp_str
    let sent := Output.ble_nus_string_send r.2 (strlen r.2)
    let errs :=
      if err_code ≠ NRF_ERROR_INVALID_STATE ∧ err_code ≠ NRF_SUCCESS then
        [Output.app_error_handler]
      else []
    { s with
      ext := r.1
      m_atcmd_resp_str := r.2
      out := s.out ++ [sent] ++ errs
      m_ble_data_src := memset src2 0 env.APP_ATCMD_MAX_DATA_LEN }

/-! ## Start-up and event sequences -/

/-- The state `main` leaves before its idle loop. `x` is the configuration store
after `config_hdlr_parse`; `uuid` and `key` are the contents of `m_beacon_uuid` and
`m_aes128_key` after the two `config_hdlr_get_bcd` lookups (all zero when the tag
is absent); `rand` is the value `sd_rand_application_vector_get` delivers. -/
def main (env : Env X) (x : X) (uuid key : List Nat)
    (num_rand_bytes_available rand : Nat) : State X :=
  { m_conn_handle := BLE_CONN_HANDLE_INVALID
    m_beacon_info := m_beacon_info_init
    m_aes128_key := key
    m_beacon_uuid := uuid
    m_adv_reinit := 0
    m_counter_ticks := if num_rand_bytes_available ≥ 4 then rand % 4294967296 else 0
    m_atcmd_resp_str := List.replicate (env.PSTORE_MAX_BLOCK + 1) 0
    m_ble_data_src := List.replicate env.APP_ATCMD_MAX_DATA_LEN 0
    data_array := List.replicate env.APP_ATCMD_MAX_DATA_LEN 0
    index := 0
    loop := 10
    ext := x
    out := [Output.nus_advertising_init, Output.ble_advertising_start] }

/-- Everything that can happen after start-up: the interrupt-driven handlers, and
direct calls of the operations they are built from. -/
inductive Event where
  | adv_evt (e : BleAdvEvt)
  | ble_evt (e : BleEvt)
  | bsp_evt (e : BspEvent)
  | radio (radio_evt : Bool)
  | uart (e : AppUartEvt)
  | nus (p_data : List Nat) (err_code : Nat)
  | call_advertising_init
  | call_advertising_reinit
  | call_sleep_mode_enter
  | call_execute_atcmd (index : Nat) (data : List Nat)
  deriving DecidableEq, Repr

/-- One event applied to a state. -/
def step (env : Env X) (s : State X) : Event → State X
  | Event.adv_evt e => on_adv_evt env e s
  | Event.ble_evt e => on_ble_evt e s
  | Event.bsp_evt e => bsp_event_handler env e s
  | Event.radio b => SWI1_IRQHandler env b s
  | Event.uart e => uart_event_handle env e s
  | Event.nus d err => nus_data_handler env d err s
  | Event.call_advertising_init => advertising_init env s
  | Event.call_advertising_reinit => advertising_reinit env s
  | Event.call_sleep_mode_enter => sleep_mode_enter env s
  | Event.call_execute_atcmd index data =>
    let r := execute_atcmd env s.ext index data s.m_atcmd_resp_str
    { s with ext := r.1, m_atcmd_resp_str := r.2 }

/-- A sequence of events applied in order. -/
def run (env : Env X) (s : State X) (events : List Event) : State X :=
  events.foldl (step env) s

/-- Scheduler ticks: `n` calls of `SWI1_IRQHandler(true)`. -/
def ticks (env : Env X) (n : Nat) (s : State X) : State X :=
  (SWI1_IRQHandler env true)^[n] s

/-- Successive rotations: `n` calls of `advertising_reinit`. -/
def rotations (env : Env X) (n : Nat) (s : State X) : State X :=
  (advertising_reinit env)^[n] s

/-- Whether a logged call is the payload update of a rotation. -/
def Output.isRotation : Output → Bool
  | Output.ble_advdata_set _ _ => true
  | _ => false

/-- Number of rotations performed so far. -/
def rotationCount (s : State X) : Nat :=
  s.out.countP Output.isRotation

/-- The payload a logged call hands to the advertising layer, if any. -/
def Output.payload? : Output → Option (List Nat)
  | Output.ble_advertising_init p size _ => some (p.take size)
  | Output.ble_advdata_set p size => some (p.take size)
  | _ => none

/-- The payloads handed to the advertising layer so far, oldest first. -/
def pushedPayloads (s : State X) : List (List Nat) :=
  s.out.filterMap Output.payload?

/-- The three constant fields of a well-formed advertising payload. -/
def PayloadOK (p : List Nat) : Prop :=
  p.length = 23 ∧ p.getD 0 0 = 0x02 ∧ p.getD 1 0 = 0x15 ∧ p.getD 22 0 = 0xC3

/-- The invariant carried along event sequences: the payload buffer and every payload
handed to the advertising layer are well formed. -/
def PayloadInv (s : State X) : Prop :=
  PayloadOK s.m_beacon_info ∧ ∀ p ∈ pushedPayloads s, PayloadOK p

/-! ## The cipher as the specification describes it -/

/-- A 16-byte block cipher: `encrypt key block`. -/
structure BlockCipher where
  encrypt : List Nat → List Nat → List Nat
  size : ∀ key block, (encrypt key block).length = APP_AES_LENGTH

/-- Modelled from the spec: the body of `encrypt_128bit_uuid`, which `main.c` calls
and `secure_scan.h` declares but whose definition is outside `main.c`. Section 4.1 of
the specification: a single-block encryption, under `key`, of the 16-byte block
derived from `uuid`; the counter is not part of the encrypted block, so the output is a
function of `(key, uuid)` alone. -/
def encrypt_128bit_uuid (bc : BlockCipher) (uuid key : List Nat) (_counter : Nat) :
    List Nat :=
  bc.encrypt key uuid

/-- An environment whose cipher is the one the specification describes. -/
def withSpecCipher (bc : BlockCipher) (env : Env X) : Env X :=
  { env with
    encrypt_128bit_uuid := encrypt_128bit_uuid bc
    encrypt_size := fun uuid key _ => bc.size key uuid }

/-- Modelled from the spec: the string `atcmd_get_ok()` points to. The function is
declared in `atcmd.h` and defined outside `main.c`; section 4.5 of the specification
gives the fixed acknowledgment token as the two letters O, K. -/
def atcmd_get_ok_spec : List Nat := [79, 75, 0]

/-! ## A concrete environment for evaluation -/

/-- A toy 16-byte cipher that depends on all three arguments. -/
def sampleCipher (uuid key : List Nat) (counter : Nat) : List Nat :=
  (List.range 16).map (fun i => (uuid.getD i 0 + key.getD i 0 + counter + i) % 256)

/-- A toy parser: the first of the `index` command bytes selects the action (G, S, V). -/
def sampleParse (x : List (List Nat × List Nat)) (index : Nat) (data : List Nat) :
    AtcmdAct × List (List Nat × List Nat) :=
  match (data.take index).head? with
  | some 71 => (AtcmdAct.APP_ATCMD_ACT_CONFIG_GET, x)
  | some 83 => (AtcmdAct.APP_ATCMD_ACT_CONFIG_SET, x)
  | some 86 => (AtcmdAct.APP_ATCMD_ACT_CONFIG_GET_VER, x)
  | _ => (AtcmdAct.other 0, x)

/-- A concrete environment: the store is an association list from tags to strings. -/
def sampleEnv : Env (List (List Nat × List Nat)) :=
  { PSTORE_MAX_BLOCK := 32
    APP_ATCMD_MAX_DATA_LEN := 20
    encrypt_128bit_uuid := sampleCipher
    encrypt_size := by intro u k c; simp [sampleCipher, APP_AES_LENGTH]
    atcmd_parse := sampleParse
    atcmd_get_ok := atcmd_get_ok_spec
    atcmd_get_nack := [78, 65, 75]
    config_hdlr_get_string := fun x tag => x.lookup tag }

/-- A start-up state of the concrete environment with counter seed `seed`. -/
def sampleBoot (seed : Nat) : State (List (List Nat × List Nat)) :=
  main sampleEnv [(tag_vers, [49, 46, 50, 46, 48])] (List.replicate 16 7)
    (List.replicate 16 9) 4 seed

/-- The concrete device right after the idle transition of a fresh start-up: rotating
mode is on and the down-counter still has its initial value. -/
def sampleRotating : State (List (List Nat × List Nat)) :=
  on_adv_evt sampleEnv BleAdvEvt.BLE_ADV_EVT_IDLE (sampleBoot 5)

/-- A toy block cipher. -/
def sampleBlockCipher : BlockCipher :=
  { encrypt := fun key block =>
      (List.range 16).map (fun i => (block.getD i 0 + 3 * key.getD i 0 + i) % 256)
    size := by intro k b; simp [APP_AES_LENGTH] }

/-! ## Transports -/

/-- Serial input: the bytes are delivered one by one as `APP_UART_DATA_READY` events. -/
def uart_feed (env : Env X) (bytes : List Nat) (s : State X) : State X :=
  bytes.foldl (fun t b => uart_event_handle env (AppUartEvt.APP_UART_DATA_READY b) t) s

/-- BLE input: the fragments are delivered in order to `nus_data_handler`, each with
the value `ble_nus_string_send` would return. -/
def nus_deliver (env : Env X) (frags : List (List Nat × Nat)) (s : State X) : State X :=
  frags.foldl (fun t f => nus_data_handler env f.1 f.2 t) s

/-- The string a logged call sends on the serial line, if any. -/
def Output.uartReply? : Output → Option (List Nat)
  | Output.uart_reply_string str => some str
  | _ => none

/-- The bytes a logged call sends over the Nordic UART Service, if any. -/
def Output.nusReply? : Output → Option (List Nat)
  | Output.ble_nus_string_send str length => some (str.take length)
  | _ => none

/-- The replies sent on the serial line so far, oldest first. -/
def uartReplies (s : State X) : List (List Nat) :=
  s.out.filterMap Output.uartReply?

/-- The replies sent over BLE so far, oldest first. -/
def nusReplies (s : State X) : List (List Nat) :=
  s.out.filterMap Output.nusReply?

/-- Whether the fatal error handler has been reached. -/
def fatal (s : State X) : Bool :=
  s.out.contains Output.app_error_handler

/-- The parser reads only the `index` bytes it is given: its result does not depend
on what the buffer holds beyond them. -/
def ParserReadsIndexBytes (env : Env X) : Prop :=
  ∀ (x : X) (n : Nat) (d d' : List Nat), d.take n = d'.take n →
    env.atcmd_parse x n d = env.atcmd_parse x n d'

/-- The part of `nus_data_handler` that runs once the command buffer ends in carriage
return: the command is executed on `length` bytes of the buffer `src`, the response is
sent, and the command buffer is cleared. -/
def nus_complete (env : Env X) (length : Nat) (src : List Nat) (err_code : Nat)
    (s : State X) : State X :=
  let r := execute_atcmd env s.ext length src s.m_atcmd_resp_str
  let sent := Output.ble_nus_string_send r.2 (strlen r.2)
  let errs :=
    if err_code ≠ NRF_ERROR_INVALID_STATE ∧ err_code ≠ NRF_SUCCESS then
      [Output.app_error_handler]
    else []
  { s with
    ext := r.1
    m_atcmd_resp_str := r.2
    out := s.out ++ [sent] ++ errs
    m_ble_data_src := memset src 0 env.APP_ATCMD_MAX_DATA_LEN }

/-- The part of `uart_event_handle` that runs once a line is complete: the command is
executed on `index` bytes of the buffer `data`, a newline is appended to the response,
the reply is sent and the accumulation index returns to 0. -/
def uart_complete (env : Env X) (index : Nat) (data : List Nat) (s : State X) : State X :=
  let r := execute_atcmd env s.ext index data s.m_atcmd_resp_str
  let resp := r.2.set (strlen r.2) 10
  { s with
    data_array := data
    ext := r.1
    m_atcmd_resp_str := resp
    out := s.out ++ [Output.uart_reply_string (cstr resp)]
    index := 0 }

/-- The response of `execute_atcmd` to a whole line, held at the start of an otherwise
zero command buffer, as a C string. -/
def lineResponse (env : Env X) (s : State X) (line : List Nat) : List Nat :=
  cstr (execute_atcmd env s.ext line.length
    (line ++ List.replicate (env.APP_ATCMD_MAX_DATA_LEN - line.length) 0)
    s.m_atcmd_resp_str).2

/-! ## Deliveries that stay inside the command buffer -/

/-- Whether a BLE delivery stays inside the command buffer: `nus_data_handler` copies
the `length` bytes of `p_data` to `m_ble_data_src + strlen(m_ble_data_src)` without a
bound check, so the C code is defined only when the buffer holds a NUL, the delivery is
not empty, its length is a `uint16_t` and the copy ends inside the buffer. -/
def nusInBounds (s : State X) (p_data : List Nat) : Bool :=
  decide (p_data ≠ []) && decide (p_data.length < 65536)
    && decide (strlen s.m_ble_data_src + p_data.length ≤ s.m_ble_data_src.length)

/-- Whether an event stays inside the buffers when it is applied to a state: a condition
on BLE deliveries only. -/
def Event.inBounds (s : State X) : Event → Bool
  | Event.nus p_data _ => nusInBounds s p_data
  | _ => true

/-- Whether every event of a sequence stays inside the buffers when it is applied in
its turn. -/
def runInBounds (env : Env X) : State X → List Event → Bool
  | _, [] => true
  | s, e :: es => Event.inBounds s e && runInBounds env (step env s e) es

end Beacon

/-! ## Lemmas on the C library helpers -/

namespace Beacon

variable {X : Type}

theorem memcpy_length (src : List Nat) : ∀ (dst : List Nat) (off : Nat),
    (memcpy dst off src).length = dst.length := by
  induction src with
  | nil => intro dst off; rfl
  | cons b rest ih => intro dst off; simp [memcpy, ih]

theorem take_succ_set (b : Nat) : ∀ (dst : List Nat) (off : Nat), off < dst.length →
    (dst.set off b).take (off + 1) = dst.take off ++ [b] := by
  intro dst
  induction dst with
  | nil => intro off h; simp at h
  | cons a as ih =>
    intro off h
    cases off with
    | zero => simp
    | succ n =>
      have hn : n < as.length := by simpa using h
      simp [List.set, ih n hn]

theorem drop_set_of_lt (b : Nat) : ∀ (dst : List Nat) (off n : Nat), off < n →
    (dst.set off b).drop n = dst.drop n := by
  intro dst
  induction dst with
  | nil => intro off n _; simp
  | cons a as ih =>
    intro off n h
    cases n with
    | zero => omega
    | succ m =>
      cases off with
      | zero => simp
      | succ k => simp [List.set, ih k m (by omega)]

/-- In bounds, `memcpy` replaces the slice `[off, off + n)` of the destination. -/
theorem memcpy_eq (src : List Nat) : ∀ (dst : List Nat) (off : Nat),
    off + src.length ≤ dst.length →
    memcpy dst off src = dst.take off ++ src ++ dst.drop (off + src.length) := by
  induction src with
  | nil => intro dst off _; simp [memcpy]
  | cons b rest ih =>
    intro dst off h
    have hlen : off < dst.length := by simp at h; omega
    have h2 : off + 1 + rest.length ≤ (dst.set off b).length := by
      simp at h ⊢; omega
    rw [memcpy, ih (dst.set off b) (off + 1) h2, take_succ_set b dst off hlen,
      drop_set_of_lt b dst off (off + 1 + rest.length) (by omega)]
    simp [Nat.add_comm, Nat.add_left_comm]

theorem le32_length (c : Nat) : (le32 c).length = 4 := rfl

theorem getD_append_add (pre l : List Nat) (i d : Nat) :
    (pre ++ l).getD (pre.length + i) d = l.getD i d := by
  induction pre with
  | nil => simp
  | cons a as ih =>
    have h : (as.length + 1 + i) = (as.length + i) + 1 := by omega
    simpa [h] using ih

theorem read32_le32 (pre post : List Nat) (c : Nat) :
    read32 (pre ++ le32 c ++ post) pre.length = c % 4294967296 := by
  have h0 := getD_append_add pre (le32 c ++ post) 0 0
  have h1 := getD_append_add pre (le32 c ++ post) 1 0
  have h2 := getD_append_add pre (le32 c ++ post) 2 0
  have h3 := getD_append_add pre (le32 c ++ post) 3 0
  simp only [Nat.add_zero] at h0
  simp only [read32, List.append_assoc, h0, h1, h2, h3]
  simp [le32]
  omega

theorem take_append_of_length (a b : List Nat) (n : Nat) (h : a.length = n) :
    (a ++ b).take n = a := by
  subst h; simp

theorem drop_append_of_length (a b : List Nat) (n k : Nat) (h : a.length = n) :
    (a ++ b).drop (n + k) = b.drop k := by
  subst h; simp

/-- The payload after a rotation: bytes 0, 1 and 22 of the old payload around the
cipher output and the counter bytes. -/
theorem advertising_reinit_payload (env : Env X) (s : State X)
    (h : s.m_beacon_info.length = 23) :
    (advertising_reinit env s).m_beacon_info =
      s.m_beacon_info.take 2
        ++ env.encrypt_128bit_uuid s.m_beacon_uuid s.m_aes128_key s.m_counter_ticks
        ++ le32 s.m_counter_ticks ++ s.m_beacon_info.drop 22 := by
  have hc := env.encrypt_size s.m_beacon_uuid s.m_aes128_key s.m_counter_ticks
  simp only [APP_AES_LENGTH] at hc
  have h1 : memcpy s.m_beacon_info 2
      (env.encrypt_128bit_uuid s.m_beacon_uuid s.m_aes128_key s.m_counter_ticks)
      = s.m_beacon_info.take 2
        ++ env.encrypt_128bit_uuid s.m_beacon_uuid s.m_aes128_key s.m_counter_ticks
        ++ s.m_beacon_info.drop 18 := by
    rw [memcpy_eq _ _ _ (by omega), hc]
  have hpre : (s.m_beacon_info.take 2
        ++ env.encrypt_128bit_uuid s.m_beacon_uuid s.m_aes128_key s.m_counter_ticks).length
        = 18 := by
    simp [hc, h]
  simp only [advertising_reinit, h1]
  rw [memcpy_eq _ _ _ (by simp [hc, h, le32_length])]
  rw [take_append_of_length _ _ 18 hpre, le32_length,
    drop_append_of_length _ _ 18 4 hpre, List.drop_drop]

theorem advertising_init_payload (env : Env X) (s : State X)
    (h : s.m_beacon_info.length = 23) :
    (advertising_init env s).m_beacon_info =
      s.m_beacon_info.take 2
        ++ env.encrypt_128bit_uuid s.m_beacon_uuid s.m_aes128_key 0
        ++ s.m_beacon_info.drop 18 := by
  have hc := env.encrypt_size s.m_beacon_uuid s.m_aes128_key 0
  simp only [APP_AES_LENGTH] at hc
  simp only [advertising_init]
  rw [memcpy_eq _ _ _ (by omega), hc]

theorem counterField_advertising_reinit (env : Env X) (s : State X)
    (h : s.m_beacon_info.length = 23) :
    counterField (advertising_reinit env s).m_beacon_info = s.m_counter_ticks % 4294967296 := by
  have hc := env.encrypt_size s.m_beacon_uuid s.m_aes128_key s.m_counter_ticks
  simp only [APP_AES_LENGTH] at hc
  have hpre : (s.m_beacon_info.take 2
        ++ env.encrypt_128bit_uuid s.m_beacon_uuid s.m_aes128_key s.m_counter_ticks).length
        = 18 := by
    simp [hc, h]
  rw [advertising_reinit_payload env s h, counterField, ← hpre]
  exact read32_le32 _ _ _

theorem advertising_reinit_length (env : Env X) (s : State X) :
    (advertising_reinit env s).m_beacon_info.length = s.m_beacon_info.length := by
  simp [advertising_reinit, memcpy_length]

theorem advertising_reinit_counter (env : Env X) (s : State X) :
    (advertising_reinit env s).m_counter_ticks = (s.m_counter_ticks + 1) % 4294967296 := rfl

theorem advertising_reinit_out (env : Env X) (s : State X) :
    (advertising_reinit env s).out =
      s.out ++ [Output.ble_advdata_set (advertising_reinit env s).m_beacon_info
        APP_BEACON_INFO_LENGTH] := rfl

theorem pushedPayloads_advertising_reinit (env : Env X) (s : State X)
    (h : s.m_beacon_info.length = 23) :
    pushedPayloads (advertising_reinit env s) =
      pushedPayloads s ++ [(advertising_reinit env s).m_beacon_info] := by
  have hl := advertising_reinit_length env s
  rw [h] at hl
  simp [pushedPayloads, advertising_reinit_out, List.filterMap_append, Output.payload?,
    APP_BEACON_INFO_LENGTH, List.take_of_length_le, hl]

/-! ## Rotation -/

/-- C1: when the rotation `advertising_reinit` runs twice in succession, the two
payloads are handed to the advertising layer in that order, and the counter field
(bytes 18..21 as a 32-bit value) of the second equals that of the first plus 1
modulo 2^32; in particular a first field of 0xFFFFFFFF is followed by 0. -/
theorem C1_rotation_counter_step (env : Env X) (s : State X)
    (h : s.m_beacon_info.length = 23) :
    pushedPayloads (rotations env 2 s) =
        pushedPayloads s ++ [(rotations env 1 s).m_beacon_info,
          (rotations env 2 s).m_beacon_info]
      ∧ counterField (rotations env 2 s).m_beacon_info =
        (counterField (rotations env 1 s).m_beacon_info + 1) % 4294967296
      ∧ (counterField (rotations env 1 s).m_beacon_info = 4294967295 →
        counterField (rotations env 2 s).m_beacon_info = 0) := by
  have h1 : (advertising_reinit env s).m_beacon_info.length = 23 := by
    rw [advertising_reinit_length, h]
  have e1 : rotations env 1 s = advertising_reinit env s := rfl
  have e2 : rotations env 2 s = advertising_reinit env (advertising_reinit env s) := rfl
  have hstep : counterField (rotations env 2 s).m_beacon_info =
      (counterField (rotations env 1 s).m_beacon_info + 1) % 4294967296 := by
    rw [e1, e2, counterField_advertising_reinit env _ h1,
      counterField_advertising_reinit env s h, advertising_reinit_counter]
    omega
  refine ⟨?_, hstep, ?_⟩
  · rw [e1, e2, pushedPayloads_advertising_reinit env _ h1,
      pushedPayloads_advertising_reinit env s h]
    simp
  · intro hmax
    rw [hstep, hmax]

/-- C1 at a state whose counter is 0xFFFFFFFF: the fields broadcast are 0xFFFFFFFF and
then 0. -/
theorem C1_rotation_counter_step_witness :
    (sampleBoot 4294967295).m_beacon_info.length = 23
      ∧ (pushedPayloads (rotations sampleEnv 2 (sampleBoot 4294967295)) =
          pushedPayloads (sampleBoot 4294967295)
            ++ [(rotations sampleEnv 1 (sampleBoot 4294967295)).m_beacon_info,
              (rotations sampleEnv 2 (sampleBoot 4294967295)).m_beacon_info]
        ∧ counterField (rotations sampleEnv 2 (sampleBoot 4294967295)).m_beacon_info =
          (counterField (rotations sampleEnv 1 (sampleBoot 4294967295)).m_beacon_info + 1)
            % 4294967296
        ∧ (counterField (rotations sampleEnv 1 (sampleBoot 4294967295)).m_beacon_info
            = 4294967295 →
          counterField (rotations sampleEnv 2 (sampleBoot 4294967295)).m_beacon_info = 0)) :=
  ⟨by decide, C1_rotation_counter_step sampleEnv (sampleBoot 4294967295) (by decide)⟩

/-- C2: after one rotation `advertising_reinit`, payload bytes 2..17 are the 16-byte
output of the cipher called on (uuid, key, c), and bytes 18..21 are the four bytes of
c in little-endian order (byte 18 least significant), where c is the value of
`m_counter_ticks` before the rotation; the rotation leaves the counter at c + 1
modulo 2^32. -/
theorem C2_rotation_writes_cipher_and_counter (env : Env X) (s : State X)
    (h : s.m_beacon_info.length = 23) :
    ((advertising_reinit env s).m_beacon_info.drop 2).take 16 =
        env.encrypt_128bit_uuid s.m_beacon_uuid s.m_aes128_key s.m_counter_ticks
      ∧ (env.encrypt_128bit_uuid s.m_beacon_uuid s.m_aes128_key s.m_counter_ticks).length
        = 16
      ∧ ((advertising_reinit env s).m_beacon_info.drop 18).take 4 =
        [s.m_counter_ticks % 256, s.m_counter_ticks / 256 % 256,
          s.m_counter_ticks / 65536 % 256, s.m_counter_ticks / 16777216 % 256]
      ∧ (advertising_reinit env s).m_counter_ticks =
        (s.m_counter_ticks + 1) % 4294967296 := by
  have hc := env.encrypt_size s.m_beacon_uuid s.m_aes128_key s.m_counter_ticks
  simp only [APP_AES_LENGTH] at hc
  have ht : (s.m_beacon_info.take 2).length = 2 := by simp [h]
  have hpre : (s.m_beacon_info.take 2
        ++ env.encrypt_128bit_uuid s.m_beacon_uuid s.m_aes128_key s.m_counter_ticks).length
        = 18 := by
    simp [hc, h]
  refine ⟨?_, hc, ?_, rfl⟩
  · rw [advertising_reinit_payload env s h, List.append_assoc, List.append_assoc,
      ← Nat.add_zero 2, drop_append_of_length _ _ 2 0 ht, List.drop_zero,
      take_append_of_length _ _ 16 hc]
  · rw [advertising_reinit_payload env s h, List.append_assoc,
      ← Nat.add_zero 18, drop_append_of_length _ _ 18 0 hpre, List.drop_zero,
      take_append_of_length _ _ 4 (le32_length _)]
    rfl

/-- C2 at a concrete state with counter 0x01020304. -/
theorem C2_rotation_writes_cipher_and_counter_witness :
    (sampleBoot 16909060).m_beacon_info.length = 23
      ∧ (((advertising_reinit sampleEnv (sampleBoot 16909060)).m_beacon_info.drop 2).take 16 =
          sampleEnv.encrypt_128bit_uuid (sampleBoot 16909060).m_beacon_uuid
            (sampleBoot 16909060).m_aes128_key (sampleBoot 16909060).m_counter_ticks
        ∧ (sampleEnv.encrypt_128bit_uuid (sampleBoot 16909060).m_beacon_uuid
            (sampleBoot 16909060).m_aes128_key (sampleBoot 16909060).m_counter_ticks).length
          = 16
        ∧ ((advertising_reinit sampleEnv (sampleBoot 16909060)).m_beacon_info.drop 18).take 4 =
          [(sampleBoot 16909060).m_counter_ticks % 256,
            (sampleBoot 16909060).m_counter_ticks / 256 % 256,
            (sampleBoot 16909060).m_counter_ticks / 65536 % 256,
            (sampleBoot 16909060).m_counter_ticks / 16777216 % 256]
        ∧ (advertising_reinit sampleEnv (sampleBoot 16909060)).m_counter_ticks =
          ((sampleBoot 16909060).m_counter_ticks + 1) % 4294967296) :=
  ⟨by decide,
    C2_rotation_writes_cipher_and_counter sampleEnv (sampleBoot 16909060) (by decide)⟩

/-! ## Payload invariant -/

theorem getD_set_ne (b : Nat) : ∀ (dst : List Nat) (off i d : Nat), i ≠ off →
    (dst.set off b).getD i d = dst.getD i d := by
  intro dst
  induction dst with
  | nil => intro off i d _; simp
  | cons a as ih =>
    intro off i d h
    cases off with
    | zero =>
      cases i with
      | zero => omega
      | succ j => simp
    | succ k =>
      cases i with
      | zero => simp
      | succ j => simpa using ih k j d (by omega)

/-- Frame property of `memcpy`: bytes outside `[off, off + n)` keep their value. -/
theorem memcpy_getD_outside (src : List Nat) : ∀ (dst : List Nat) (off i d : Nat),
    (i < off ∨ off + src.length ≤ i) → (memcpy dst off src).getD i d = dst.getD i d := by
  induction src with
  | nil => intro dst off i d _; rfl
  | cons b rest ih =>
    intro dst off i d h
    have h1 : i < off + 1 ∨ off + 1 + rest.length ≤ i := by
      simp at h; omega
    have h2 : i ≠ off := by simp at h; omega
    rw [memcpy, ih _ _ _ _ h1, getD_set_ne b dst off i d h2]

theorem payloadOK_advertising_init (env : Env X) (s : State X)
    (h : PayloadOK s.m_beacon_info) : PayloadOK (advertising_init env s).m_beacon_info := by
  have hc := env.encrypt_size s.m_beacon_uuid s.m_aes128_key 0
  simp only [APP_AES_LENGTH] at hc
  obtain ⟨hl, h0, h1, h22⟩ := h
  refine ⟨?_, ?_, ?_, ?_⟩
  · simp [advertising_init, memcpy_length, hl]
  · simp only [advertising_init]
    rw [memcpy_getD_outside _ _ _ _ _ (by omega), h0]
  · simp only [advertising_init]
    rw [memcpy_getD_outside _ _ _ _ _ (by omega), h1]
  · simp only [advertising_init]
    rw [memcpy_getD_outside _ _ _ _ _ (by omega), h22]

theorem payloadOK_advertising_reinit (env : Env X) (s : State X)
    (h : PayloadOK s.m_beacon_info) : PayloadOK (advertising_reinit env s).m_beacon_info := by
  have hc := env.encrypt_size s.m_beacon_uuid s.m_aes128_key s.m_counter_ticks
  simp only [APP_AES_LENGTH] at hc
  have h4 := le32_length s.m_counter_ticks
  obtain ⟨hl, h0, h1, h22⟩ := h
  refine ⟨?_, ?_, ?_, ?_⟩
  · simp [advertising_reinit, memcpy_length, hl]
  · simp only [advertising_reinit]
    rw [memcpy_getD_outside _ _ _ _ _ (by omega),
      memcpy_getD_outside _ _ _ _ _ (by omega), h0]
  · simp only [advertising_reinit]
    rw [memcpy_getD_outside _ _ _ _ _ (by omega),
      memcpy_getD_outside _ _ _ _ _ (by omega), h1]
  · simp only [advertising_reinit]
    rw [memcpy_getD_outside _ _ _ _ _ (by omega),
      memcpy_getD_outside _ _ _ _ _ (by omega), h22]

theorem mem_pushedPayloads_snoc (t s : State X) (o : Output)
    (h : t.out = s.out ++ [o]) (p : List Nat) :
    p ∈ pushedPayloads t ↔ p ∈ pushedPayloads s ∨ Output.payload? o = some p := by
  simp [pushedPayloads, h, List.filterMap_append]

theorem payloadInv_advertising_init (env : Env X) (s : State X) (h : PayloadInv s) :
    PayloadInv (advertising_init env s) := by
  have hok := payloadOK_advertising_init env s h.1
  have e : List.take APP_BEACON_INFO_LENGTH (advertising_init env s).m_beacon_info
      = (advertising_init env s).m_beacon_info := List.take_of_length_le (Nat.le_of_eq hok.1)
  refine ⟨hok, ?_⟩
  intro p hp
  rcases (mem_pushedPayloads_snoc _ s _ rfl p).1 hp with hp | hp
  · exact h.2 p hp
  · simp only [Output.payload?, Option.some.injEq] at hp
    rw [← hp]
    show PayloadOK (List.take APP_BEACON_INFO_LENGTH (advertising_init env s).m_beacon_info)
    rw [e]
    exact hok

theorem payloadInv_advertising_reinit (env : Env X) (s : State X) (h : PayloadInv s) :
    PayloadInv (advertising_reinit env s) := by
  have hok := payloadOK_advertising_reinit env s h.1
  have e : List.take APP_BEACON_INFO_LENGTH (advertising_reinit env s).m_beacon_info
      = (advertising_reinit env s).m_beacon_info := List.take_of_length_le (Nat.le_of_eq hok.1)
  refine ⟨hok, ?_⟩
  intro p hp
  rcases (mem_pushedPayloads_snoc _ s _ rfl p).1 hp with hp | hp
  · exact h.2 p hp
  · simp only [Output.payload?, Option.some.injEq] at hp
    rw [← hp]
    show PayloadOK (List.take APP_BEACON_INFO_LENGTH (advertising_reinit env s).m_beacon_info)
    rw [e]
    exact hok

/-- A state change that keeps the payload buffer and only logs calls that carry no
payload keeps the invariant. -/
theorem payloadInv_of_frame (s t : State X) (h : PayloadInv s)
    (hinfo : t.m_beacon_info = s.m_beacon_info)
    (hout : pushedPayloads t = pushedPayloads s) : PayloadInv t := by
  unfold PayloadInv
  rw [hinfo, hout]
  exact h

theorem payloadInv_sleep_mode_enter (env : Env X) (s : State X) (h : PayloadInv s) :
    PayloadInv (sleep_mode_enter env s) := by
  refine payloadInv_of_frame (advertising_reinit env s) _
    (payloadInv_advertising_reinit env s h) rfl ?_
  simp [pushedPayloads, sleep_mode_enter, List.filterMap_append, Output.payload?]

theorem payloadInv_on_adv_evt (env : Env X) (e : BleAdvEvt) (s : State X)
    (h : PayloadInv s) : PayloadInv (on_adv_evt env e s) := by
  cases e with
  | BLE_ADV_EVT_FAST => exact h
  | other => exact h
  | BLE_ADV_EVT_IDLE =>
    refine payloadInv_of_frame (advertising_init env s) _
      (payloadInv_advertising_init env s h) rfl ?_
    simp [pushedPayloads, on_adv_evt, List.filterMap_append, Output.payload?]

theorem payloadInv_SWI1_IRQHandler (env : Env X) (b : Bool) (s : State X)
    (h : PayloadInv s) : PayloadInv (SWI1_IRQHandler env b s) := by
  unfold SWI1_IRQHandler
  split
  · split
    · have h10 : PayloadInv { s with loop := 10 } := payloadInv_of_frame s _ h rfl rfl
      simp only []
      split
      · exact payloadInv_advertising_reinit env _ h10
      · exact h10
    · exact payloadInv_of_frame s _ h rfl rfl
  · exact h

theorem payloadInv_uart_event_handle (env : Env X) (e : AppUartEvt) (s : State X)
    (h : PayloadInv s) : PayloadInv (uart_event_handle env e s) := by
  cases e with
  | APP_UART_DATA_READY byte =>
    simp only [uart_event_handle]
    split
    · refine payloadInv_of_frame s _ h rfl ?_
      simp [pushedPayloads, List.filterMap_append, Output.payload?]
    · exact payloadInv_of_frame s _ h rfl rfl
  | APP_UART_COMMUNICATION_ERROR =>
    refine payloadInv_of_frame s _ h rfl ?_
    simp [pushedPayloads, uart_event_handle, List.filterMap_append, Output.payload?]
  | APP_UART_FIFO_ERROR =>
    refine payloadInv_of_frame s _ h rfl ?_
    simp [pushedPayloads, uart_event_handle, List.filterMap_append, Output.payload?]
  | other => exact h

theorem nus_data_handler_m_beacon_info (env : Env X) (d : List Nat) (err : Nat)
    (s : State X) : (nus_data_handler env d err s).m_beacon_info = s.m_beacon_info := by
  simp only [nus_data_handler]
  split_ifs <;> rfl

theorem nus_data_handler_pushedPayloads (env : Env X) (d : List Nat) (err : Nat)
    (s : State X) : pushedPayloads (nus_data_handler env d err s) = pushedPayloads s := by
  simp only [nus_data_handler]
  split_ifs <;> simp [pushedPayloads, List.filterMap_append, Output.payload?]

theorem payloadInv_nus_data_handler (env : Env X) (d : List Nat) (err : Nat) (s : State X)
    (h : PayloadInv s) : PayloadInv (nus_data_handler env d err s) :=
  payloadInv_of_frame s _ h (nus_data_handler_m_beacon_info env d err s)
    (nus_data_handler_pushedPayloads env d err s)

theorem payloadInv_step (env : Env X) (s : State X) (e : Event) (h : PayloadInv s) :
    PayloadInv (step env s e) := by
  cases e with
  | adv_evt e => exact payloadInv_on_adv_evt env e s h
  | ble_evt e => cases e <;> exact payloadInv_of_frame s _ h rfl rfl
  | bsp_evt e =>
    cases e with
    | BSP_EVENT_SLEEP => exact payloadInv_sleep_mode_enter env s h
    | BSP_EVENT_DISCONNECT =>
      refine payloadInv_of_frame s _ h rfl ?_
      simp [step, pushedPayloads, bsp_event_handler, List.filterMap_append, Output.payload?]
    | BSP_EVENT_WHITELIST_OFF =>
      refine payloadInv_of_frame s _ h rfl ?_
      simp [step, pushedPayloads, bsp_event_handler, List.filterMap_append, Output.payload?]
    | other => exact h
  | radio b => exact payloadInv_SWI1_IRQHandler env b s h
  | uart e => exact payloadInv_uart_event_handle env e s h
  | nus d err => exact payloadInv_nus_data_handler env d err s h
  | call_advertising_init => exact payloadInv_advertising_init env s h
  | call_advertising_reinit => exact payloadInv_advertising_reinit env s h
  | call_sleep_mode_enter => exact payloadInv_sleep_mode_enter env s h
  | call_execute_atcmd index data => exact payloadInv_of_frame s _ h rfl rfl

theorem payloadInv_run (env : Env X) (events : List Event) :
    ∀ s : State X, PayloadInv s → PayloadInv (run env s events) := by
  induction events with
  | nil => intro s h; exact h
  | cons e es ih => intro s h; exact ih (step env s e) (payloadInv_step env s e h)

theorem payloadInv_main (env : Env X) (x : X) (uuid key : List Nat) (n rand : Nat) :
    PayloadInv (main env x uuid key n rand) := by
  have hinit : PayloadOK m_beacon_info_init := by unfold PayloadOK; decide
  refine ⟨hinit, ?_⟩
  intro p hp
  simp [pushedPayloads, main, Output.payload?] at hp

/-- C3: in every state reached from start-up by any sequence of events (mode entries
through `advertising_init`, rotations through `advertising_reinit`, scheduler ticks,
command executions on either transport or directly, connection and board events) whose
BLE deliveries stay inside the command buffer, the advertising payload buffer is 23
bytes long with bytes 0, 1 and 22 equal to 0x02, 0x15 and 0xC3, and so is every payload
that has been handed to the advertising layer. The only stores into the payload buffer
are the 16 cipher bytes at offset 2 and the 4 counter bytes at offset 18. -/
theorem C3_payload_invariant (env : Env X) (x : X) (uuid key : List Nat)
    (num_rand_bytes_available rand : Nat) (events : List Event)
    (_hin : runInBounds env (main env x uuid key num_rand_bytes_available rand) events
      = true) :
    PayloadOK (run env (main env x uuid key num_rand_bytes_available rand) events).m_beacon_info
      ∧ ∀ p ∈ pushedPayloads
          (run env (main env x uuid key num_rand_bytes_available rand) events),
        PayloadOK p :=
  payloadInv_run env events _ (payloadInv_main env x uuid key num_rand_bytes_available rand)

/-- C3 on the concrete device: idle entry, a command delivered over BLE in two
fragments, a serial command, twelve scheduler ticks and a board sleep event. -/
theorem C3_payload_invariant_witness :
    runInBounds sampleEnv
        (main sampleEnv [(tag_vers, [49, 46, 50, 46, 48])] (List.replicate 16 7)
          (List.replicate 16 9) 4 5)
        ([Event.adv_evt BleAdvEvt.BLE_ADV_EVT_IDLE, Event.nus [86] 0, Event.nus [49, 59] 0,
          Event.uart (AppUartEvt.APP_UART_DATA_READY 71),
          Event.uart (AppUartEvt.APP_UART_DATA_READY 13)]
          ++ List.replicate 12 (Event.radio true)
          ++ [Event.bsp_evt BspEvent.BSP_EVENT_SLEEP]) = true
      ∧ (PayloadOK (run sampleEnv
            (main sampleEnv [(tag_vers, [49, 46, 50, 46, 48])] (List.replicate 16 7)
              (List.replicate 16 9) 4 5)
            ([Event.adv_evt BleAdvEvt.BLE_ADV_EVT_IDLE, Event.nus [86] 0,
              Event.nus [49, 59] 0, Event.uart (AppUartEvt.APP_UART_DATA_READY 71),
              Event.uart (AppUartEvt.APP_UART_DATA_READY 13)]
              ++ List.replicate 12 (Event.radio true)
              ++ [Event.bsp_evt BspEvent.BSP_EVENT_SLEEP])).m_beacon_info
        ∧ ∀ p ∈ pushedPayloads (run sampleEnv
            (main sampleEnv [(tag_vers, [49, 46, 50, 46, 48])] (List.replicate 16 7)
              (List.replicate 16 9) 4 5)
            ([Event.adv_evt BleAdvEvt.BLE_ADV_EVT_IDLE, Event.nus [86] 0,
              Event.nus [49, 59] 0, Event.uart (AppUartEvt.APP_UART_DATA_READY 71),
              Event.uart (AppUartEvt.APP_UART_DATA_READY 13)]
              ++ List.replicate 12 (Event.radio true)
              ++ [Event.bsp_evt BspEvent.BSP_EVENT_SLEEP])),
          PayloadOK p) :=
  ⟨by decide,
    C3_payload_invariant sampleEnv [(tag_vers, [49, 46, 50, 46, 48])] (List.replicate 16 7)
      (List.replicate 16 9) 4 5
      ([Event.adv_evt BleAdvEvt.BLE_ADV_EVT_IDLE, Event.nus [86] 0, Event.nus [49, 59] 0,
        Event.uart (AppUartEvt.APP_UART_DATA_READY 71),
        Event.uart (AppUartEvt.APP_UART_DATA_READY 13)]
        ++ List.replicate 12 (Event.radio true)
        ++ [Event.bsp_evt BspEvent.BSP_EVENT_SLEEP])
      (by decide)⟩

/-! ## Successive rotations -/

theorem rotations_succ (env : Env X) (n : Nat) (s : State X) :
    rotations env (n + 1) s = advertising_reinit env (rotations env n s) :=
  Function.iterate_succ_apply' _ _ _

/-- What successive rotations keep: the identity, the payload length, and the payload
bytes before offset 2 and from offset 22 on. -/
theorem rotations_frame (env : Env X) (s : State X) (h : s.m_beacon_info.length = 23) :
    ∀ n, (rotations env n s).m_beacon_info.length = 23
      ∧ (rotations env n s).m_beacon_uuid = s.m_beacon_uuid
      ∧ (rotations env n s).m_aes128_key = s.m_aes128_key
      ∧ (rotations env n s).m_beacon_info.take 2 = s.m_beacon_info.take 2
      ∧ (rotations env n s).m_beacon_info.drop 22 = s.m_beacon_info.drop 22 := by
  intro n
  induction n with
  | zero => exact ⟨h, rfl, rfl, rfl, rfl⟩
  | succ n ih =>
    obtain ⟨hl, hu, hk, ht, hd⟩ := ih
    have hc := env.encrypt_size (rotations env n s).m_beacon_uuid
      (rotations env n s).m_aes128_key (rotations env n s).m_counter_ticks
    simp only [APP_AES_LENGTH] at hc
    have ht2 : ((rotations env n s).m_beacon_info.take 2).length = 2 := by simp [hl]
    have hpre : ((rotations env n s).m_beacon_info.take 2
        ++ env.encrypt_128bit_uuid (rotations env n s).m_beacon_uuid
          (rotations env n s).m_aes128_key (rotations env n s).m_counter_ticks
        ++ le32 (rotations env n s).m_counter_ticks).length = 22 := by
      simp [hc, hl, le32_length]
    rw [rotations_succ]
    refine ⟨by rw [advertising_reinit_length, hl], hu, hk, ?_, ?_⟩
    · rw [advertising_reinit_payload env _ hl, List.append_assoc, List.append_assoc,
        take_append_of_length _ _ 2 ht2, ht]
    · rw [advertising_reinit_payload env _ hl, ← Nat.add_zero 22,
        drop_append_of_length _ _ 22 0 hpre, List.drop_zero, hd]

theorem rotations_counter (env : Env X) (s : State X) :
    ∀ n, (rotations env n s).m_counter_ticks % 4294967296 =
      (s.m_counter_ticks + n) % 4294967296 := by
  intro n
  induction n with
  | zero => rfl
  | succ n ih =>
    rw [rotations_succ, advertising_reinit_counter]
    omega

/-- The payload after `n + 1` rotations. -/
theorem rotations_payload (env : Env X) (s : State X) (h : s.m_beacon_info.length = 23)
    (n : Nat) :
    (rotations env (n + 1) s).m_beacon_info =
      s.m_beacon_info.take 2
        ++ env.encrypt_128bit_uuid s.m_beacon_uuid s.m_aes128_key
          (rotations env n s).m_counter_ticks
        ++ le32 (rotations env n s).m_counter_ticks ++ s.m_beacon_info.drop 22 := by
  obtain ⟨hl, hu, hk, ht, hd⟩ := rotations_frame env s h n
  rw [rotations_succ, advertising_reinit_payload env _ hl, hu, hk, ht, hd]

/-- The counter field after `n + 1` rotations. -/
theorem counterField_rotations (env : Env X) (s : State X)
    (h : s.m_beacon_info.length = 23) (n : Nat) :
    counterField (rotations env (n + 1) s).m_beacon_info =
      (s.m_counter_ticks + n) % 4294967296 := by
  rw [rotations_succ, counterField_advertising_reinit env _ (rotations_frame env s h n).1,
    rotations_counter]

theorem getD_append_mid (pre mid1 mid2 post : List Nat) (hlen : mid1.length = mid2.length)
    (i d : Nat) (hi : i < pre.length ∨ pre.length + mid1.length ≤ i) :
    (pre ++ mid1 ++ post).getD i d = (pre ++ mid2 ++ post).getD i d := by
  rcases hi with hi | hi
  · rw [List.append_assoc, List.append_assoc, List.getD_append _ _ _ _ hi,
      List.getD_append _ _ _ _ hi]
  · rw [List.getD_append_right _ _ _ _ (by simp; omega),
      List.getD_append_right _ _ _ _ (by simp; omega)]
    simp [hlen]

/-- C4: with the cipher the specification describes, every rotation writes the same 16
bytes (the block cipher applied to the key and the uuid) into payload offsets 2..17,
whatever the rotation counter and however many rotations came before; and two runs
that differ only in the counter produce, after any number of rotations, payloads that
agree at every offset outside 18..21. -/
theorem C4_cipher_field_independent_of_counter (bc : BlockCipher) (env : Env X)
    (s : State X) (c2 n : Nat) (h : s.m_beacon_info.length = 23) :
    ((rotations (withSpecCipher bc env) (n + 1) s).m_beacon_info.drop 2).take 16 =
        bc.encrypt s.m_aes128_key s.m_beacon_uuid
      ∧ ∀ i, i < 18 ∨ 22 ≤ i →
        (rotations (withSpecCipher bc env) (n + 1) s).m_beacon_info.getD i 0 =
          (rotations (withSpecCipher bc env) (n + 1)
            { s with m_counter_ticks := c2 }).m_beacon_info.getD i 0 := by
  have hc := bc.size s.m_aes128_key s.m_beacon_uuid
  simp only [APP_AES_LENGTH] at hc
  have ht : (s.m_beacon_info.take 2).length = 2 := by simp [h]
  have hpre : (s.m_beacon_info.take 2 ++ bc.encrypt s.m_aes128_key s.m_beacon_uuid).length
      = 18 := by simp [hc, h]
  have e1 := rotations_payload (withSpecCipher bc env) s h n
  have e2 := rotations_payload (withSpecCipher bc env) { s with m_counter_ticks := c2 } h n
  have hE : ∀ u k c, (withSpecCipher bc env).encrypt_128bit_uuid u k c = bc.encrypt k u :=
    fun _ _ _ => rfl
  rw [hE] at e1 e2
  constructor
  · rw [e1, List.append_assoc, List.append_assoc, ← Nat.add_zero 2,
      drop_append_of_length _ _ 2 0 ht, List.drop_zero, take_append_of_length _ _ 16 hc]
  · intro i hi
    rw [e1, e2]
    apply getD_append_mid
    · rfl
    · rw [hpre, le32_length]; omega

/-- C4 at a concrete state, compared with the run whose counter starts at 77. -/
theorem C4_cipher_field_independent_of_counter_witness :
    (sampleBoot 5).m_beacon_info.length = 23
      ∧ (((rotations (withSpecCipher sampleBlockCipher sampleEnv) (2 + 1)
            (sampleBoot 5)).m_beacon_info.drop 2).take 16 =
          sampleBlockCipher.encrypt (sampleBoot 5).m_aes128_key (sampleBoot 5).m_beacon_uuid
        ∧ ∀ i, i < 18 ∨ 22 ≤ i →
          (rotations (withSpecCipher sampleBlockCipher sampleEnv) (2 + 1)
              (sampleBoot 5)).m_beacon_info.getD i 0 =
            (rotations (withSpecCipher sampleBlockCipher sampleEnv) (2 + 1)
              { sampleBoot 5 with m_counter_ticks := 77 }).m_beacon_info.getD i 0) :=
  ⟨by decide,
    C4_cipher_field_independent_of_counter sampleBlockCipher sampleEnv (sampleBoot 5) 77 2
      (by decide)⟩

/-! ## The rotation scheduler -/

theorem ticks_succ (env : Env X) (n : Nat) (s : State X) :
    ticks env (n + 1) s = SWI1_IRQHandler env true (ticks env n s) :=
  Function.iterate_succ_apply' _ _ _

theorem tick_count_down (env : Env X) (s : State X) (h : s.loop ≠ 0) :
    SWI1_IRQHandler env true s = { s with loop := s.loop - 1 } := by
  simp [SWI1_IRQHandler, h]

theorem tick_fire (env : Env X) (s : State X) (h : s.loop = 0) (hrot : s.m_adv_reinit ≠ 0) :
    SWI1_IRQHandler env true s = advertising_reinit env { s with loop := 10 } := by
  simp [SWI1_IRQHandler, h, hrot]

theorem rotationCount_advertising_reinit (env : Env X) (s : State X) :
    rotationCount (advertising_reinit env s) = rotationCount s + 1 := by
  simp [rotationCount, advertising_reinit_out, List.countP_append, Output.isRotation]

/-- The scheduler in rotating mode, from a down-counter of at most 10: the number of
rotations after `m` ticks, and the down-counter then. -/
theorem ticks_rotationCount (env : Env X) (s : State X) (hrot : s.m_adv_reinit ≠ 0)
    (hloop : s.loop ≤ 10) :
    ∀ m, rotationCount (ticks env m s) = rotationCount s + (m + (10 - s.loop)) / 11
      ∧ (ticks env m s).loop = 10 - (m + (10 - s.loop)) % 11
      ∧ (ticks env m s).m_adv_reinit = s.m_adv_reinit := by
  intro m
  induction m with
  | zero =>
    refine ⟨?_, ?_, rfl⟩
    · show rotationCount s = _
      omega
    · show s.loop = _
      omega
  | succ m ih =>
    obtain ⟨hcount, hl, hr⟩ := ih
    rw [ticks_succ]
    by_cases h0 : (ticks env m s).loop = 0
    · rw [tick_fire env _ h0 (by rw [hr]; exact hrot)]
      refine ⟨?_, ?_, ?_⟩
      · rw [rotationCount_advertising_reinit]
        show rotationCount (ticks env m s) + 1 = _
        omega
      · show 10 = _
        omega
      · exact hr
    · rw [tick_count_down env _ h0]
      refine ⟨?_, ?_, hr⟩
      · show rotationCount (ticks env m s) = _
        omega
      · show (ticks env m s).loop - 1 = _
        omega

/-- C5 (as stated) fails: on the concrete device in rotating mode with the freshly
initialised down-counter, 10 ticks perform no rotation, so it is not the case that
10*n ticks perform n rotations for every n. -/
theorem C5_counterexample :
    ¬ ∀ n, rotationCount (ticks sampleEnv (10 * n) sampleRotating)
        = rotationCount sampleRotating + n := by
  intro h
  have h1 := h 1
  revert h1
  decide

/-- C5 (amended): in rotating mode, starting from the freshly initialised down-counter
(10), exactly one rotation fires per 11 scheduler ticks: after 11*n calls of
`SWI1_IRQHandler(true)` exactly n rotations have been performed, and after m calls
exactly m / 11 (rounded down). -/
theorem C5_one_rotation_per_eleven_ticks (env : Env X) (s : State X)
    (hrot : s.m_adv_reinit ≠ 0) (hloop : s.loop = 10) (n m : Nat) :
    rotationCount (ticks env (11 * n) s) = rotationCount s + n
      ∧ rotationCount (ticks env m s) = rotationCount s + m / 11 := by
  have h1 := (ticks_rotationCount env s hrot (by omega) (11 * n)).1
  have h2 := (ticks_rotationCount env s hrot (by omega) m).1
  rw [hloop] at h1 h2
  constructor
  · rw [h1]; omega
  · rw [h2]; simp

/-- C5 (amended) on the concrete device: 33 ticks perform 3 rotations, 32 ticks 2. -/
theorem C5_one_rotation_per_eleven_ticks_witness :
    sampleRotating.m_adv_reinit ≠ 0 ∧ sampleRotating.loop = 10
      ∧ (rotationCount (ticks sampleEnv (11 * 3) sampleRotating)
          = rotationCount sampleRotating + 3
        ∧ rotationCount (ticks sampleEnv 32 sampleRotating)
          = rotationCount sampleRotating + 32 / 11) :=
  ⟨by decide, by decide,
    C5_one_rotation_per_eleven_ticks sampleEnv sampleRotating (by decide) (by decide) 3 32⟩

theorem ticks_count_down (env : Env X) (s : State X) :
    ∀ k, k ≤ s.loop → ticks env k s = { s with loop := s.loop - k } := by
  intro k
  induction k with
  | zero => intro _; rfl
  | succ k ih =>
    intro hk
    rw [ticks_succ, ih (by omega), tick_count_down env _ (by show s.loop - k ≠ 0; omega)]
    show { s with loop := s.loop - k - 1 } = _
    rw [Nat.sub_sub]

/-- In rotating mode the first rotation fires on tick number `loop + 1`. -/
theorem ticks_first_rotation (env : Env X) (s : State X) (hrot : s.m_adv_reinit ≠ 0) :
    ticks env (s.loop + 1) s = advertising_reinit env { s with loop := 10 } := by
  have hfire := tick_fire env { s with loop := s.loop - s.loop }
    (by show s.loop - s.loop = 0; omega) hrot
  rw [ticks_succ, ticks_count_down env s s.loop (Nat.le_refl _), hfire]

/-- C6 (as stated) fails: on the concrete device, the number of rotations performed k
ticks after the idle entry depends on the number of ticks counted before the entry
(10 ticks before entry: a rotation on the first tick after it; none before: no
rotation on that tick). -/
theorem C6_counterexample :
    ¬ ∀ ticksBefore k,
        rotationCount (ticks sampleEnv k (on_adv_evt sampleEnv BleAdvEvt.BLE_ADV_EVT_IDLE
            (ticks sampleEnv ticksBefore (sampleBoot 5))))
          = rotationCount (ticks sampleEnv k
            (on_adv_evt sampleEnv BleAdvEvt.BLE_ADV_EVT_IDLE (sampleBoot 5))) := by
  intro h
  have h1 := h 10 1
  revert h1
  decide

/-- C6 (amended): neither entry path touches the scheduler's down-counter; after the
idle entry no rotation is performed on the first `loop` ticks and exactly one has
been performed after `loop + 1` ticks, where `loop` is the value of the down-counter
before the entry. -/
theorem C6_entry_keeps_down_counter (env : Env X) (s : State X) (k : Nat) :
    (on_adv_evt env BleAdvEvt.BLE_ADV_EVT_IDLE s).loop = s.loop
      ∧ (sleep_mode_enter env s).loop = s.loop
      ∧ (k ≤ s.loop →
        rotationCount (ticks env k (on_adv_evt env BleAdvEvt.BLE_ADV_EVT_IDLE s))
          = rotationCount (on_adv_evt env BleAdvEvt.BLE_ADV_EVT_IDLE s))
      ∧ rotationCount (ticks env (s.loop + 1) (on_adv_evt env BleAdvEvt.BLE_ADV_EVT_IDLE s))
          = rotationCount (on_adv_evt env BleAdvEvt.BLE_ADV_EVT_IDLE s) + 1 := by
  have hl : (on_adv_evt env BleAdvEvt.BLE_ADV_EVT_IDLE s).loop = s.loop := rfl
  have hr : (on_adv_evt env BleAdvEvt.BLE_ADV_EVT_IDLE s).m_adv_reinit ≠ 0 := by
    show (1 : Nat) ≠ 0
    decide
  refine ⟨hl, rfl, ?_, ?_⟩
  · intro hk
    rw [ticks_count_down env _ k (by rw [hl]; exact hk)]
    rfl
  · rw [← hl, ticks_first_rotation env _ hr, rotationCount_advertising_reinit]
    rfl

/-- C6 (amended) on the concrete device after 4 ticks: the down-counter is 6 at entry,
no rotation within 3 ticks, one after 7. -/
theorem C6_entry_keeps_down_counter_witness :
    (on_adv_evt sampleEnv BleAdvEvt.BLE_ADV_EVT_IDLE (ticks sampleEnv 4 (sampleBoot 5))).loop
        = (ticks sampleEnv 4 (sampleBoot 5)).loop
      ∧ (sleep_mode_enter sampleEnv (ticks sampleEnv 4 (sampleBoot 5))).loop
        = (ticks sampleEnv 4 (sampleBoot 5)).loop
      ∧ (3 ≤ (ticks sampleEnv 4 (sampleBoot 5)).loop →
        rotationCount (ticks sampleEnv 3 (on_adv_evt sampleEnv BleAdvEvt.BLE_ADV_EVT_IDLE
            (ticks sampleEnv 4 (sampleBoot 5))))
          = rotationCount (on_adv_evt sampleEnv BleAdvEvt.BLE_ADV_EVT_IDLE
            (ticks sampleEnv 4 (sampleBoot 5))))
      ∧ rotationCount (ticks sampleEnv ((ticks sampleEnv 4 (sampleBoot 5)).loop + 1)
            (on_adv_evt sampleEnv BleAdvEvt.BLE_ADV_EVT_IDLE (ticks sampleEnv 4 (sampleBoot 5))))
          = rotationCount (on_adv_evt sampleEnv BleAdvEvt.BLE_ADV_EVT_IDLE
            (ticks sampleEnv 4 (sampleBoot 5))) + 1 :=
  C6_entry_keeps_down_counter sampleEnv (ticks sampleEnv 4 (sampleBoot 5)) 3

/-! ## Mode entry -/

theorem counterField_advertising_init (env : Env X) (s : State X) :
    counterField (advertising_init env s).m_beacon_info = counterField s.m_beacon_info := by
  have hc := env.encrypt_size s.m_beacon_uuid s.m_aes128_key 0
  simp only [APP_AES_LENGTH] at hc
  simp only [counterField, read32, advertising_init]
  rw [memcpy_getD_outside _ _ _ _ _ (by omega), memcpy_getD_outside _ _ _ _ _ (by omega),
    memcpy_getD_outside _ _ _ _ _ (by omega), memcpy_getD_outside _ _ _ _ _ (by omega)]

theorem pushedPayloads_on_adv_evt_idle (env : Env X) (s : State X)
    (h : s.m_beacon_info.length = 23) :
    pushedPayloads (on_adv_evt env BleAdvEvt.BLE_ADV_EVT_IDLE s) =
      pushedPayloads s ++ [(on_adv_evt env BleAdvEvt.BLE_ADV_EVT_IDLE s).m_beacon_info] := by
  have hl : (memcpy s.m_beacon_info 2
      (env.encrypt_128bit_uuid s.m_beacon_uuid s.m_aes128_key 0)).length = 23 := by
    rw [memcpy_length, h]
  simp [pushedPayloads, on_adv_evt, advertising_init, List.filterMap_append, Output.payload?,
    APP_BEACON_INFO_LENGTH, List.take_of_length_le, hl]

theorem pushedPayloads_sleep_mode_enter (env : Env X) (s : State X)
    (h : s.m_beacon_info.length = 23) :
    pushedPayloads (sleep_mode_enter env s) =
      pushedPayloads s ++ [(sleep_mode_enter env s).m_beacon_info] := by
  have e : pushedPayloads (sleep_mode_enter env s) = pushedPayloads (advertising_reinit env s) := by
    simp [pushedPayloads, sleep_mode_enter, List.filterMap_append, Output.payload?]
  rw [e, pushedPayloads_advertising_reinit env s h]
  rfl

/-- The first scheduler-driven rotation after a state in rotating mode: what it hands to
the advertising layer and the counter field it writes. -/
theorem first_rotation_after (env : Env X) (s : State X) (h : s.m_beacon_info.length = 23)
    (hrot : s.m_adv_reinit ≠ 0) :
    pushedPayloads (ticks env (s.loop + 1) s) =
        pushedPayloads s ++ [(ticks env (s.loop + 1) s).m_beacon_info]
      ∧ counterField (ticks env (s.loop + 1) s).m_beacon_info =
        s.m_counter_ticks % 4294967296 := by
  rw [ticks_first_rotation env s hrot]
  exact ⟨pushedPayloads_advertising_reinit env { s with loop := 10 } h,
    counterField_advertising_reinit env { s with loop := 10 } h⟩

/-- Entry through `sleep_mode_enter` while the rotating flag is set: the entry itself
rotates, the next payload handed to the advertising layer is that of the first
scheduler-driven rotation (on tick `loop + 1`), and its counter field differs from the
counter field of the payload broadcast at entry. -/
theorem sleep_mode_enter_first_rotation_fresh (env : Env X) (s : State X)
    (h : s.m_beacon_info.length = 23) (hrot : s.m_adv_reinit ≠ 0) :
    pushedPayloads (ticks env (s.loop + 1) (sleep_mode_enter env s)) =
        pushedPayloads s ++ [(sleep_mode_enter env s).m_beacon_info,
          (ticks env (s.loop + 1) (sleep_mode_enter env s)).m_beacon_info]
      ∧ counterField (ticks env (s.loop + 1) (sleep_mode_enter env s)).m_beacon_info
        ≠ counterField (sleep_mode_enter env s).m_beacon_info := by
  have hl : (sleep_mode_enter env s).m_beacon_info.length = 23 := by
    show (advertising_reinit env s).m_beacon_info.length = 23
    rw [advertising_reinit_length, h]
  have hf := first_rotation_after env (sleep_mode_enter env s) hl hrot
  have hloop : (sleep_mode_enter env s).loop = s.loop := rfl
  rw [hloop] at hf
  refine ⟨?_, ?_⟩
  · rw [hf.1, pushedPayloads_sleep_mode_enter env s h]
    simp
  · rw [hf.2]
    have e : counterField (sleep_mode_enter env s).m_beacon_info
        = s.m_counter_ticks % 4294967296 := counterField_advertising_reinit env s h
    have ec : (sleep_mode_enter env s).m_counter_ticks
        = (s.m_counter_ticks + 1) % 4294967296 := rfl
    rw [e, ec]
    omega

/-- C8: the code at a concrete input. The device starts with counter 5 and takes the
idle transition: the counter is still 5, whose bytes are 5, 0, 0, 0, yet the payload
handed to the advertising layer holds 1, 2, 3, 4 (the start-up major and minor values)
at offsets 18..21, and the counter field read from it is 0x04030201. -/
theorem C8_idle_entry_payload_keeps_old_counter_bytes :
    (on_adv_evt sampleEnv BleAdvEvt.BLE_ADV_EVT_IDLE (sampleBoot 5)).m_counter_ticks = 5
      ∧ le32 5 = [5, 0, 0, 0]
      ∧ pushedPayloads (on_adv_evt sampleEnv BleAdvEvt.BLE_ADV_EVT_IDLE (sampleBoot 5))
        = [[2, 21, 16, 17, 18, 19, 20, 21, 22, 23, 24, 25, 26, 27, 28, 29, 30, 31,
            1, 2, 3, 4, 195]]
      ∧ (((on_adv_evt sampleEnv BleAdvEvt.BLE_ADV_EVT_IDLE
            (sampleBoot 5)).m_beacon_info.drop 18).take 4 = [1, 2, 3, 4])
      ∧ counterField (on_adv_evt sampleEnv BleAdvEvt.BLE_ADV_EVT_IDLE
          (sampleBoot 5)).m_beacon_info = 67305985 := by
  decide

/-! ## Counter field along a session -/

/-- C9 (as stated) fails: on the concrete device started with counter 0, the counter
field after the first rotation that follows the idle entry is 0, so it is not the case
that after k rotations the field equals k for every k. -/
theorem C9_counterexample :
    ¬ ∀ k, counterField (rotations sampleEnv k
        (on_adv_evt sampleEnv BleAdvEvt.BLE_ADV_EVT_IDLE (sampleBoot 0))).m_beacon_info = k := by
  intro h
  have h1 := h 1
  revert h1
  decide

/-- C9 (amended): the counter is not reset at mode entry. After the idle entry from a
state with counter c0, the counter field after k + 1 rotations is (c0 + k) mod 2^32;
after entry through `sleep_mode_enter`, which itself performs a rotation, the field
after k further rotations is (c0 + k) mod 2^32. -/
theorem C9_counter_field_after_rotations (env : Env X) (s : State X)
    (h : s.m_beacon_info.length = 23) (k : Nat) :
    counterField (rotations env (k + 1)
          (on_adv_evt env BleAdvEvt.BLE_ADV_EVT_IDLE s)).m_beacon_info
        = (s.m_counter_ticks + k) % 4294967296
      ∧ counterField (rotations env k (sleep_mode_enter env s)).m_beacon_info
        = (s.m_counter_ticks + k) % 4294967296 := by
  constructor
  · have hl : (on_adv_evt env BleAdvEvt.BLE_ADV_EVT_IDLE s).m_beacon_info.length = 23 := by
      show (memcpy s.m_beacon_info 2 _).length = 23
      rw [memcpy_length, h]
    rw [counterField_rotations env _ hl k]
    rfl
  · have hl : (sleep_mode_enter env s).m_beacon_info.length = 23 := by
      show (advertising_reinit env s).m_beacon_info.length = 23
      rw [advertising_reinit_length, h]
    cases k with
    | zero => exact counterField_advertising_reinit env s h
    | succ j =>
      rw [counterField_rotations env _ hl j]
      show ((s.m_counter_ticks + 1) % 4294967296 + j) % 4294967296 = _
      omega

/-- C9 (amended) on the concrete device started with counter 4294967294: the field
wraps within the session. -/
theorem C9_counter_field_after_rotations_witness :
    (sampleBoot 4294967294).m_beacon_info.length = 23
      ∧ (counterField (rotations sampleEnv (3 + 1)
            (on_adv_evt sampleEnv BleAdvEvt.BLE_ADV_EVT_IDLE
              (sampleBoot 4294967294))).m_beacon_info
          = ((sampleBoot 4294967294).m_counter_ticks + 3) % 4294967296
        ∧ counterField (rotations sampleEnv 3
            (sleep_mode_enter sampleEnv (sampleBoot 4294967294))).m_beacon_info
          = ((sampleBoot 4294967294).m_counter_ticks + 3) % 4294967296) :=
  ⟨by decide, C9_counter_field_after_rotations sampleEnv (sampleBoot 4294967294) (by decide) 3⟩

/-! ## Command execution -/

theorem memset_full (buf : List Nat) (v n : Nat) (h : buf.length = n) :
    memset buf v n = List.replicate n v := by
  rw [memset, memcpy_eq _ _ _ (by simp [h])]
  simp [← h]

theorem take_strlen (l : List Nat) : l.take (strlen l) = cstr l := by
  induction l with
  | nil => rfl
  | cons a as ih =>
    by_cases ha : a = 0
    · simp [strlen, cstr, ha]
    · simp only [strlen, cstr] at ih ⊢
      simp [List.takeWhile_cons, ha, ih]

theorem cstr_append_zero (v rest : List Nat) (hv : ∀ b ∈ v, b ≠ 0) :
    cstr (v ++ 0 :: rest) = v := by
  induction v with
  | nil => simp [cstr]
  | cons a as ih =>
    have ha : a ≠ 0 := hv a (by simp)
    have has : ∀ b ∈ as, b ≠ 0 := fun b hb => hv b (by simp [hb])
    simp only [cstr] at ih ⊢
    simp [List.takeWhile_cons, ha, ih has]

theorem cstr_of_no_zero (v : List Nat) (hv : ∀ b ∈ v, b ≠ 0) : cstr v = v := by
  induction v with
  | nil => rfl
  | cons a as ih =>
    have ha : a ≠ 0 := hv a (by simp)
    have has : ∀ b ∈ as, b ≠ 0 := fun b hb => hv b (by simp [hb])
    simp only [cstr] at ih ⊢
    simp [List.takeWhile_cons, ha, ih has]

/-- Copying the C string held in a zero-filled 16-byte scratch buffer into a zero-filled
response buffer leaves the string followed by zeros. -/
theorem copy_string_response (str resp : List Nat) (n : Nat) (hlen : str.length ≤ 15)
    (hnz : ∀ b ∈ str, b ≠ 0) (hn : 15 ≤ n) (hresp : resp.length = n + 1) :
    memcpy (memset resp 0 (n + 1)) 0
        ((strcpy (List.replicate 16 0) str).take (strlen (strcpy (List.replicate 16 0) str)))
      = str ++ List.replicate (n + 1 - str.length) 0 := by
  have hd : strcpy (List.replicate 16 0) str
      = str ++ 0 :: List.drop (str.length + 1) (List.replicate 16 0) := by
    rw [strcpy, cstr_of_no_zero str hnz, memcpy_eq _ _ _ (by simp; omega)]
    simp
  rw [take_strlen, hd, cstr_append_zero str _ hnz, memset_full resp 0 (n + 1) hresp,
    memcpy_eq _ _ _ (by simp; omega)]
  simp

/-- C10: for a command the parser classifies as CONFIG_GET_VER, `execute_atcmd` leaves
in the response buffer exactly the string stored under the tag vers when the lookup
finds one (of at most 15 non-NUL bytes), and exactly the three letters N, U, L when the
tag is absent, followed only by zero bytes up to the size of the buffer; read as a C
string the response is that string. -/
theorem C10_get_ver_response (env : Env X) (x : X) (index : Nat) (data p_resp_str : List Nat)
    (hparse : (env.atcmd_parse x index data).1 = AtcmdAct.APP_ATCMD_ACT_CONFIG_GET_VER)
    (hbuf : p_resp_str.length = env.PSTORE_MAX_BLOCK + 1)
    (hblock : 15 ≤ env.PSTORE_MAX_BLOCK)
    (hver : ∀ v, env.config_hdlr_get_string (env.atcmd_parse x index data).2 tag_vers = some v →
      v.length ≤ 15 ∧ ∀ b ∈ v, b ≠ 0) :
    (execute_atcmd env x index data p_resp_str).2 =
        (env.config_hdlr_get_string (env.atcmd_parse x index data).2 tag_vers).getD str_NUL
          ++ List.replicate (env.PSTORE_MAX_BLOCK + 1
            - ((env.config_hdlr_get_string (env.atcmd_parse x index data).2
                tag_vers).getD str_NUL).length) 0
      ∧ cstr (execute_atcmd env x index data p_resp_str).2 =
        (env.config_hdlr_get_string (env.atcmd_parse x index data).2 tag_vers).getD str_NUL := by
  have key : (execute_atcmd env x index data p_resp_str).2 =
      (env.config_hdlr_get_string (env.atcmd_parse x index data).2 tag_vers).getD str_NUL
        ++ List.replicate (env.PSTORE_MAX_BLOCK + 1
          - ((env.config_hdlr_get_string (env.atcmd_parse x index data).2
              tag_vers).getD str_NUL).length) 0 := by
    simp only [execute_atcmd, hparse]
    cases hlook : env.config_hdlr_get_string (env.atcmd_parse x index data).2 tag_vers with
    | none =>
      exact copy_string_response str_NUL p_resp_str env.PSTORE_MAX_BLOCK (by decide)
        (by decide) hblock hbuf
    | some v =>
      obtain ⟨hl, hnz⟩ := hver v hlook
      exact copy_string_response v p_resp_str env.PSTORE_MAX_BLOCK hl hnz hblock hbuf
  refine ⟨key, ?_⟩
  rw [key]
  cases hlook : env.config_hdlr_get_string (env.atcmd_parse x index data).2 tag_vers with
  | none =>
    have hr : env.PSTORE_MAX_BLOCK + 1 - (Option.getD none str_NUL).length
        = (env.PSTORE_MAX_BLOCK - 3) + 1 := by
      show env.PSTORE_MAX_BLOCK + 1 - 3 = _
      omega
    rw [hr, List.replicate_succ]
    exact cstr_append_zero _ _ (by decide)
  | some v =>
    obtain ⟨hl, hnz⟩ := hver v hlook
    have hr : env.PSTORE_MAX_BLOCK + 1 - (Option.getD (some v) str_NUL).length
        = (env.PSTORE_MAX_BLOCK - v.length) + 1 := by
      show env.PSTORE_MAX_BLOCK + 1 - v.length = _
      omega
    rw [hr, List.replicate_succ]
    exact cstr_append_zero _ _ hnz

/-- C10 on the concrete device: the store holds 1.2.0 under vers, the command is V
followed by carriage return, and the response buffer held 33 stale bytes. -/
theorem C10_get_ver_response_witness :
    (sampleEnv.atcmd_parse [(tag_vers, [49, 46, 50, 46, 48])] 2 [86, 13]).1
        = AtcmdAct.APP_ATCMD_ACT_CONFIG_GET_VER
      ∧ (List.replicate 33 88).length = sampleEnv.PSTORE_MAX_BLOCK + 1
      ∧ 15 ≤ sampleEnv.PSTORE_MAX_BLOCK
      ∧ (∀ v, sampleEnv.config_hdlr_get_string
            (sampleEnv.atcmd_parse [(tag_vers, [49, 46, 50, 46, 48])] 2 [86, 13]).2 tag_vers
            = some v → v.length ≤ 15 ∧ ∀ b ∈ v, b ≠ 0)
      ∧ ((execute_atcmd sampleEnv [(tag_vers, [49, 46, 50, 46, 48])] 2 [86, 13]
              (List.replicate 33 88)).2 =
            (sampleEnv.config_hdlr_get_string
                (sampleEnv.atcmd_parse [(tag_vers, [49, 46, 50, 46, 48])] 2 [86, 13]).2
                tag_vers).getD str_NUL
              ++ List.replicate (sampleEnv.PSTORE_MAX_BLOCK + 1
                - ((sampleEnv.config_hdlr_get_string
                    (sampleEnv.atcmd_parse [(tag_vers, [49, 46, 50, 46, 48])] 2 [86, 13]).2
                    tag_vers).getD str_NUL).length) 0
          ∧ cstr (execute_atcmd sampleEnv [(tag_vers, [49, 46, 50, 46, 48])] 2 [86, 13]
              (List.replicate 33 88)).2 =
            (sampleEnv.config_hdlr_get_string
                (sampleEnv.atcmd_parse [(tag_vers, [49, 46, 50, 46, 48])] 2 [86, 13]).2
                tag_vers).getD str_NUL) :=
  have hver : ∀ v, sampleEnv.config_hdlr_get_string
      (sampleEnv.atcmd_parse [(tag_vers, [49, 46, 50, 46, 48])] 2 [86, 13]).2 tag_vers
      = some v → v.length ≤ 15 ∧ ∀ b ∈ v, b ≠ 0 := by
    intro v hv
    have e : [49, 46, 50, 46, 48] = v := Option.some.inj hv
    subst e
    decide
  ⟨by decide, by decide, by decide, hver,
    C10_get_ver_response sampleEnv [(tag_vers, [49, 46, 50, 46, 48])] 2 [86, 13]
      (List.replicate 33 88) (by decide) (by decide) (by decide) hver⟩

/-- The same command on an empty store: the response is N, U, L and zeros; with the
store of the concrete device it is 1.2.0 and zeros. -/
theorem execute_atcmd_get_ver_examples :
    (execute_atcmd sampleEnv [] 2 [86, 13] (List.replicate 33 88)).2
        = [78, 85, 76] ++ List.replicate 30 0
      ∧ (execute_atcmd sampleEnv [(tag_vers, [49, 46, 50, 46, 48])] 2 [86, 13]
          (List.replicate 33 88)).2
        = [49, 46, 50, 46, 48] ++ List.replicate 28 0 := by
  decide

/-! ## The response buffer -/

theorem memcpy_of_length_le (src : List Nat) : ∀ (dst : List Nat) (off : Nat),
    dst.length ≤ off → memcpy dst off src = dst := by
  induction src with
  | nil => intro dst off _; rfl
  | cons b rest ih =>
    intro dst off h
    rw [memcpy, List.set_eq_of_length_le h, ih dst (off + 1) (by omega)]

/-- What `memcpy` leaves in the destination in the model, in or out of bounds. -/
theorem memcpy_general (src : List Nat) : ∀ (dst : List Nat) (off : Nat),
    off ≤ dst.length →
    memcpy dst off src =
      dst.take off ++ src.take (dst.length - off) ++ dst.drop (off + src.length) := by
  induction src with
  | nil => intro dst off _; simp [memcpy]
  | cons b rest ih =>
    intro dst off h
    by_cases hlt : off < dst.length
    · have h2 : off + 1 ≤ (dst.set off b).length := by simp; omega
      have h3 : dst.length - off = (dst.length - (off + 1)) + 1 := by omega
      rw [memcpy, ih (dst.set off b) (off + 1) h2, take_succ_set b dst off hlt,
        drop_set_of_lt b dst off (off + 1 + rest.length) (by omega), List.length_set, h3,
        List.take_succ_cons]
      simp [Nat.add_comm, Nat.add_left_comm]
    · have heq : off = dst.length := by omega
      rw [memcpy_of_length_le _ _ _ (by omega), heq]
      simp

theorem cstr_no_zero (l : List Nat) : ∀ b ∈ cstr l, b ≠ 0 := by
  intro b hb
  have h := List.mem_takeWhile_imp hb
  simpa using h

/-- A NUL-free string copied to the start of a zero-filled buffer: the buffer then holds
the string (cut at the buffer size) followed only by zeros. -/
theorem fill_form (T : List Nat) (n : Nat) (hT : ∀ b ∈ T, b ≠ 0) :
    memcpy (List.replicate n 0) 0 T = T.take n ++ List.replicate (n - T.length) 0
      ∧ cstr (memcpy (List.replicate n 0) 0 T) = T.take n := by
  have e : memcpy (List.replicate n 0) 0 T = T.take n ++ List.replicate (n - T.length) 0 := by
    rw [memcpy_general _ _ _ (Nat.zero_le _)]
    simp
  refine ⟨e, ?_⟩
  rw [e]
  have hTn : ∀ b ∈ T.take n, b ≠ 0 := fun b hb => hT b (List.mem_of_mem_take hb)
  cases hk : n - T.length with
  | zero => simp [cstr_of_no_zero _ hTn]
  | succ k =>
    rw [List.replicate_succ]
    exact cstr_append_zero _ _ hTn

/-- The response buffer after `execute_atcmd`, for a buffer of the declared size: some
NUL-free string, cut at the buffer size, followed only by zeros; it does not depend on
what the buffer held before. -/
theorem execute_atcmd_resp (env : Env X) (x : X) (index : Nat) (data p : List Nat)
    (hp : p.length = env.PSTORE_MAX_BLOCK + 1) :
    ∃ T : List Nat, (∀ b ∈ T, b ≠ 0)
      ∧ (execute_atcmd env x index data p).2
        = memcpy (List.replicate (env.PSTORE_MAX_BLOCK + 1) 0) 0 T := by
  simp only [execute_atcmd, memset_full p 0 _ hp, take_strlen]
  split
  · exact ⟨_, cstr_no_zero _, rfl⟩
  · exact ⟨_, cstr_no_zero _, rfl⟩
  · exact ⟨_, cstr_no_zero _, rfl⟩
  · exact ⟨_, cstr_no_zero _, rfl⟩

/-- The response buffer is its C string followed only by zeros. -/
theorem execute_atcmd_zero_tail (env : Env X) (x : X) (index : Nat) (data p : List Nat)
    (hp : p.length = env.PSTORE_MAX_BLOCK + 1) :
    (execute_atcmd env x index data p).2 =
      cstr (execute_atcmd env x index data p).2
        ++ List.replicate (env.PSTORE_MAX_BLOCK + 1
          - (cstr (execute_atcmd env x index data p).2).length) 0 := by
  obtain ⟨T, hT, e⟩ := execute_atcmd_resp env x index data p hp
  obtain ⟨e1, e2⟩ := fill_form T (env.PSTORE_MAX_BLOCK + 1) hT
  rw [e, e2]
  conv_lhs => rw [e1]
  congr 2
  simp
  omega

theorem execute_atcmd_ok (env : Env X) (x : X) (index : Nat) (data p : List Nat)
    (hact : (env.atcmd_parse x index data).1 = AtcmdAct.APP_ATCMD_ACT_CONFIG_GET
      ∨ (env.atcmd_parse x index data).1 = AtcmdAct.APP_ATCMD_ACT_CONFIG_SET)
    (hp : p.length = env.PSTORE_MAX_BLOCK + 1) :
    (execute_atcmd env x index data p).2
      = memcpy (List.replicate (env.PSTORE_MAX_BLOCK + 1) 0) 0 (cstr env.atcmd_get_ok) := by
  rcases hact with h | h <;>
    simp only [execute_atcmd, h, memset_full p 0 _ hp, take_strlen]

theorem execute_atcmd_nack (env : Env X) (x : X) (index : Nat) (data p : List Nat)
    (code : Nat) (hact : (env.atcmd_parse x index data).1 = AtcmdAct.other code)
    (hp : p.length = env.PSTORE_MAX_BLOCK + 1) :
    (execute_atcmd env x index data p).2
      = memcpy (List.replicate (env.PSTORE_MAX_BLOCK + 1) 0) 0 (cstr env.atcmd_get_nack) := by
  simp only [execute_atcmd, hact, memset_full p 0 _ hp, take_strlen]

/-- A token that fits the response buffer is what the buffer holds, followed by zeros. -/
theorem token_response (tok : List Nat) (n : Nat) (hfit : strlen tok ≤ n) :
    memcpy (List.replicate (n + 1) 0) 0 (cstr tok)
        = cstr tok ++ List.replicate (n + 1 - strlen tok) 0
      ∧ cstr (memcpy (List.replicate (n + 1) 0) 0 (cstr tok)) = cstr tok := by
  obtain ⟨e1, e2⟩ := fill_form (cstr tok) (n + 1) (cstr_no_zero tok)
  have ht : (cstr tok).take (n + 1) = cstr tok :=
    List.take_of_length_le (by show strlen tok ≤ n + 1; omega)
  rw [ht] at e1 e2
  exact ⟨e1, e2⟩

/-- C11: for every command the parser classifies as CONFIG_GET or as CONFIG_SET,
`execute_atcmd` leaves in the response buffer exactly the acknowledgment token
`atcmd_get_ok()` followed by zeros. The response is the same for both actions and for
any two runs, whatever the store, the command bytes (tag, value) and the prior buffer
contents; with the token the specification names, it is the two letters O, K. -/
theorem C11_get_set_response (env : Env X) (x x' : X) (index index' : Nat)
    (data data' p p' : List Nat)
    (hact : (env.atcmd_parse x index data).1 = AtcmdAct.APP_ATCMD_ACT_CONFIG_GET
      ∨ (env.atcmd_parse x index data).1 = AtcmdAct.APP_ATCMD_ACT_CONFIG_SET)
    (hact' : (env.atcmd_parse x' index' data').1 = AtcmdAct.APP_ATCMD_ACT_CONFIG_GET
      ∨ (env.atcmd_parse x' index' data').1 = AtcmdAct.APP_ATCMD_ACT_CONFIG_SET)
    (hp : p.length = env.PSTORE_MAX_BLOCK + 1) (hp' : p'.length = env.PSTORE_MAX_BLOCK + 1)
    (hfit : strlen env.atcmd_get_ok ≤ env.PSTORE_MAX_BLOCK) :
    (execute_atcmd env x index data p).2
        = cstr env.atcmd_get_ok
          ++ List.replicate (env.PSTORE_MAX_BLOCK + 1 - strlen env.atcmd_get_ok) 0
      ∧ cstr (execute_atcmd env x index data p).2 = cstr env.atcmd_get_ok
      ∧ (execute_atcmd env x index data p).2 = (execute_atcmd env x' index' data' p').2
      ∧ (env.atcmd_get_ok = atcmd_get_ok_spec →
        cstr (execute_atcmd env x index data p).2 = [79, 75]) := by
  have e := execute_atcmd_ok env x index data p hact hp
  have e' := execute_atcmd_ok env x' index' data' p' hact' hp'
  obtain ⟨t1, t2⟩ := token_response env.atcmd_get_ok env.PSTORE_MAX_BLOCK hfit
  refine ⟨by rw [e, t1], by rw [e, t2], by rw [e, e'], ?_⟩
  intro hspec
  rw [e, t2, hspec]
  decide

/-- C11 on the concrete device (token O, K): a GET and a SET command on different
stores and different prior buffers. -/
theorem C11_get_set_response_witness :
    ((sampleEnv.atcmd_parse [] 3 [71, 49, 13]).1 = AtcmdAct.APP_ATCMD_ACT_CONFIG_GET
        ∨ (sampleEnv.atcmd_parse [] 3 [71, 49, 13]).1 = AtcmdAct.APP_ATCMD_ACT_CONFIG_SET)
      ∧ ((sampleEnv.atcmd_parse [(tag_vers, [49])] 4 [83, 50, 51, 13]).1
          = AtcmdAct.APP_ATCMD_ACT_CONFIG_GET
        ∨ (sampleEnv.atcmd_parse [(tag_vers, [49])] 4 [83, 50, 51, 13]).1
          = AtcmdAct.APP_ATCMD_ACT_CONFIG_SET)
      ∧ (List.replicate 33 88).length = sampleEnv.PSTORE_MAX_BLOCK + 1
      ∧ (List.replicate 33 0).length = sampleEnv.PSTORE_MAX_BLOCK + 1
      ∧ strlen sampleEnv.atcmd_get_ok ≤ sampleEnv.PSTORE_MAX_BLOCK
      ∧ sampleEnv.atcmd_get_ok = atcmd_get_ok_spec
      ∧ (execute_atcmd sampleEnv [] 3 [71, 49, 13] (List.replicate 33 88)).2
          = cstr sampleEnv.atcmd_get_ok
            ++ List.replicate (sampleEnv.PSTORE_MAX_BLOCK + 1 - strlen sampleEnv.atcmd_get_ok) 0
      ∧ cstr (execute_atcmd sampleEnv [] 3 [71, 49, 13] (List.replicate 33 88)).2
          = cstr sampleEnv.atcmd_get_ok
      ∧ (execute_atcmd sampleEnv [] 3 [71, 49, 13] (List.replicate 33 88)).2
          = (execute_atcmd sampleEnv [(tag_vers, [49])] 4 [83, 50, 51, 13]
            (List.replicate 33 0)).2
      ∧ cstr (execute_atcmd sampleEnv [] 3 [71, 49, 13] (List.replicate 33 88)).2
          = [79, 75] :=
  have h := C11_get_set_response sampleEnv [] [(tag_vers, [49])] 3 4 [71, 49, 13]
    [83, 50, 51, 13] (List.replicate 33 88) (List.replicate 33 0) (by decide) (by decide)
    (by decide) (by decide) (by decide)
  ⟨by decide, by decide, by decide, by decide, by decide, rfl, h.1, h.2.1, h.2.2.1,
    h.2.2.2 rfl⟩

theorem fatal_of_out (s t : State X) (os : List Output) (h : t.out = s.out ++ os)
    (hno : Output.app_error_handler ∉ os) : fatal t = fatal s := by
  have hb : os.contains Output.app_error_handler = false := by
    simpa using hno
  simp only [fatal, h]
  rw [Bool.eq_iff_iff]
  simp [hno]

theorem uart_data_ready_fatal (env : Env X) (byte : Nat) (s : State X) :
    fatal (uart_event_handle env (AppUartEvt.APP_UART_DATA_READY byte) s) = fatal s := by
  simp only [uart_event_handle]
  split
  · exact fatal_of_out s _ _ rfl (by simp)
  · rfl

theorem nus_data_handler_fatal (env : Env X) (d : List Nat) (err : Nat) (s : State X)
    (herr : err = NRF_SUCCESS ∨ err = NRF_ERROR_INVALID_STATE) :
    fatal (nus_data_handler env d err s) = fatal s := by
  have hif : (if err ≠ NRF_ERROR_INVALID_STATE ∧ err ≠ NRF_SUCCESS then
      [Output.app_error_handler] else []) = [] := by
    rcases herr with h | h <;> simp [h]
  simp only [nus_data_handler, hif]
  split_ifs
  · rfl
  · exact fatal_of_out s _ _ (List.append_assoc _ _ _) (by simp)
  · rfl
  · exact fatal_of_out s _ _ (List.append_assoc _ _ _) (by simp)

/-- C12: for every input the parser classifies as none of CONFIG_GET, CONFIG_SET and
CONFIG_GET_VER, `execute_atcmd` leaves in the response buffer exactly the
negative-acknowledgment token `atcmd_get_nack()` followed by zeros, and the execution
logs no call at all, so the fatal error handler is not reached; nor is it reached by
any serial data event, or by a BLE delivery whose reply the stack accepts. -/
theorem C12_unrecognized_command_nack (env : Env X) (s : State X) (index : Nat)
    (data : List Nat) (byte err : Nat)
    (hget : (env.atcmd_parse s.ext index data).1 ≠ AtcmdAct.APP_ATCMD_ACT_CONFIG_GET)
    (hset : (env.atcmd_parse s.ext index data).1 ≠ AtcmdAct.APP_ATCMD_ACT_CONFIG_SET)
    (hver : (env.atcmd_parse s.ext index data).1 ≠ AtcmdAct.APP_ATCMD_ACT_CONFIG_GET_VER)
    (hp : s.m_atcmd_resp_str.length = env.PSTORE_MAX_BLOCK + 1)
    (hfit : strlen env.atcmd_get_nack ≤ env.PSTORE_MAX_BLOCK)
    (herr : err = NRF_SUCCESS ∨ err = NRF_ERROR_INVALID_STATE) :
    (execute_atcmd env s.ext index data s.m_atcmd_resp_str).2
        = cstr env.atcmd_get_nack
          ++ List.replicate (env.PSTORE_MAX_BLOCK + 1 - strlen env.atcmd_get_nack) 0
      ∧ cstr (execute_atcmd env s.ext index data s.m_atcmd_resp_str).2
        = cstr env.atcmd_get_nack
      ∧ (step env s (Event.call_execute_atcmd index data)).out = s.out
      ∧ fatal (step env s (Event.call_execute_atcmd index data)) = fatal s
      ∧ fatal (uart_event_handle env (AppUartEvt.APP_UART_DATA_READY byte) s) = fatal s
      ∧ fatal (nus_data_handler env data err s) = fatal s := by
  have hother : ∃ code, (env.atcmd_parse s.ext index data).1 = AtcmdAct.other code := by
    cases hc : (env.atcmd_parse s.ext index data).1 with
    | APP_ATCMD_ACT_CONFIG_GET => exact absurd hc hget
    | APP_ATCMD_ACT_CONFIG_SET => exact absurd hc hset
    | APP_ATCMD_ACT_CONFIG_GET_VER => exact absurd hc hver
    | other code => exact ⟨code, rfl⟩
  obtain ⟨code, hc⟩ := hother
  have e := execute_atcmd_nack env s.ext index data s.m_atcmd_resp_str code hc hp
  obtain ⟨t1, t2⟩ := token_response env.atcmd_get_nack env.PSTORE_MAX_BLOCK hfit
  exact ⟨by rw [e, t1], by rw [e, t2], rfl, rfl, uart_data_ready_fatal env byte s,
    nus_data_handler_fatal env data err s herr⟩

/-- C12 on the concrete device: the command Z followed by carriage return. -/
theorem C12_unrecognized_command_nack_witness :
    (sampleEnv.atcmd_parse (sampleBoot 5).ext 2 [90, 13]).1
        ≠ AtcmdAct.APP_ATCMD_ACT_CONFIG_GET
      ∧ (sampleEnv.atcmd_parse (sampleBoot 5).ext 2 [90, 13]).1
        ≠ AtcmdAct.APP_ATCMD_ACT_CONFIG_SET
      ∧ (sampleEnv.atcmd_parse (sampleBoot 5).ext 2 [90, 13]).1
        ≠ AtcmdAct.APP_ATCMD_ACT_CONFIG_GET_VER
      ∧ (sampleBoot 5).m_atcmd_resp_str.length = sampleEnv.PSTORE_MAX_BLOCK + 1
      ∧ strlen sampleEnv.atcmd_get_nack ≤ sampleEnv.PSTORE_MAX_BLOCK
      ∧ (0 = NRF_SUCCESS ∨ 0 = NRF_ERROR_INVALID_STATE)
      ∧ ((execute_atcmd sampleEnv (sampleBoot 5).ext 2 [90, 13]
              (sampleBoot 5).m_atcmd_resp_str).2
            = cstr sampleEnv.atcmd_get_nack
              ++ List.replicate
                (sampleEnv.PSTORE_MAX_BLOCK + 1 - strlen sampleEnv.atcmd_get_nack) 0
        ∧ cstr (execute_atcmd sampleEnv (sampleBoot 5).ext 2 [90, 13]
              (sampleBoot 5).m_atcmd_resp_str).2
            = cstr sampleEnv.atcmd_get_nack
        ∧ (step sampleEnv (sampleBoot 5) (Event.call_execute_atcmd 2 [90, 13])).out
            = (sampleBoot 5).out
        ∧ fatal (step sampleEnv (sampleBoot 5) (Event.call_execute_atcmd 2 [90, 13]))
            = fatal (sampleBoot 5)
        ∧ fatal (uart_event_handle sampleEnv (AppUartEvt.APP_UART_DATA_READY 13)
              (sampleBoot 5)) = fatal (sampleBoot 5)
        ∧ fatal (nus_data_handler sampleEnv [90, 13] 0 (sampleBoot 5))
            = fatal (sampleBoot 5)) :=
  ⟨by decide, by decide, by decide, by decide, by decide, by decide,
    C12_unrecognized_command_nack sampleEnv (sampleBoot 5) 2 [90, 13] 13 0 (by decide)
      (by decide) (by decide) (by decide) (by decide) (by decide)⟩

/-- C13: for a response buffer of the declared size, what `execute_atcmd` leaves (in
the store and in the buffer) is the same for any two prior contents of the buffer; the
buffer keeps its size and holds the response string followed only by zero bytes up to
that size. -/
theorem C13_response_independent_of_prior_buffer (env : Env X) (x : X) (index : Nat)
    (data p p' : List Nat) (hp : p.length = env.PSTORE_MAX_BLOCK + 1)
    (hp' : p'.length = env.PSTORE_MAX_BLOCK + 1) :
    execute_atcmd env x index data p = execute_atcmd env x index data p'
      ∧ (execute_atcmd env x index data p).2.length = env.PSTORE_MAX_BLOCK + 1
      ∧ (execute_atcmd env x index data p).2 =
        cstr (execute_atcmd env x index data p).2
          ++ List.replicate (env.PSTORE_MAX_BLOCK + 1
            - (cstr (execute_atcmd env x index data p).2).length) 0 := by
  refine ⟨?_, ?_, execute_atcmd_zero_tail env x index data p hp⟩
  · simp only [execute_atcmd, memset_full p 0 _ hp, memset_full p' 0 _ hp']
  · obtain ⟨T, _, e⟩ := execute_atcmd_resp env x index data p hp
    rw [e, memcpy_length, List.length_replicate]

/-- C13 on the concrete device: a GET command after a longer version reply that the
serial transport terminated with a newline, against a clean buffer. -/
theorem C13_response_independent_of_prior_buffer_witness :
    ([49, 46, 50, 46, 48, 10] ++ List.replicate 27 0).length
        = sampleEnv.PSTORE_MAX_BLOCK + 1
      ∧ (List.replicate 33 0).length = sampleEnv.PSTORE_MAX_BLOCK + 1
      ∧ (execute_atcmd sampleEnv [] 2 [71, 13]
            ([49, 46, 50, 46, 48, 10] ++ List.replicate 27 0)
          = execute_atcmd sampleEnv [] 2 [71, 13] (List.replicate 33 0)
        ∧ (execute_atcmd sampleEnv [] 2 [71, 13]
            ([49, 46, 50, 46, 48, 10] ++ List.replicate 27 0)).2.length
          = sampleEnv.PSTORE_MAX_BLOCK + 1
        ∧ (execute_atcmd sampleEnv [] 2 [71, 13]
            ([49, 46, 50, 46, 48, 10] ++ List.replicate 27 0)).2 =
          cstr (execute_atcmd sampleEnv [] 2 [71, 13]
              ([49, 46, 50, 46, 48, 10] ++ List.replicate 27 0)).2
            ++ List.replicate (sampleEnv.PSTORE_MAX_BLOCK + 1
              - (cstr (execute_atcmd sampleEnv [] 2 [71, 13]
                  ([49, 46, 50, 46, 48, 10] ++ List.replicate 27 0)).2).length) 0) :=
  ⟨by decide, by decide,
    C13_response_independent_of_prior_buffer sampleEnv [] 2 [71, 13]
      ([49, 46, 50, 46, 48, 10] ++ List.replicate 27 0) (List.replicate 33 0) (by decide)
      (by decide)⟩

/-! ## The BLE transport -/

theorem getD_at_length (pre rest : List Nat) (b d : Nat) :
    (pre ++ b :: rest).getD pre.length d = b := by
  induction pre with
  | nil => rfl
  | cons a as ih => simpa using ih

theorem set_at_length (pre rest : List Nat) (b b' : Nat) :
    (pre ++ b :: rest).set pre.length b' = pre ++ b' :: rest := by
  induction pre with
  | nil => rfl
  | cons a as ih => simp [ih]

/-- In bounds, a copy of `body` followed by one more byte, as prefix, byte and rest. -/
theorem memcpy_snoc (dst body : List Nat) (off b : Nat)
    (h : off + body.length + 1 ≤ dst.length) :
    memcpy dst off (body ++ [b]) =
      (dst.take off ++ body) ++ b :: dst.drop (off + body.length + 1) := by
  rw [memcpy_eq _ _ _ (by simp; omega)]
  simp [Nat.add_assoc]

theorem memcpy_snoc_prefix_length (dst body : List Nat) (off : Nat)
    (h : off + body.length + 1 ≤ dst.length) :
    (dst.take off ++ body).length = off + body.length := by
  simp
  omega

/-- One in-bounds delivery to `nus_data_handler`: a fragment that ends in semicolon or
carriage return completes the command on the buffer with carriage return stored; any
other fragment is only appended to the command buffer. -/
theorem nus_data_handler_in_bounds (env : Env X) (body : List Nat) (last err : Nat)
    (s : State X) (hsize : s.m_ble_data_src.length < 65536)
    (hfit : strlen s.m_ble_data_src + body.length + 1 ≤ s.m_ble_data_src.length) :
    nus_data_handler env (body ++ [last]) err s =
      if last = 59 ∨ last = 13 then
        nus_complete env (strlen s.m_ble_data_src + body.length + 1)
          (memcpy s.m_ble_data_src (strlen s.m_ble_data_src) (body ++ [13])) err s
      else
        { s with m_ble_data_src :=
            memcpy s.m_ble_data_src (strlen s.m_ble_data_src) (body ++ [last]) } := by
  have hc : strlen s.m_ble_data_src % 65536 = strlen s.m_ble_data_src :=
    Nat.mod_eq_of_lt (by omega)
  have hL : ((body ++ [last]).length + strlen s.m_ble_data_src) % 65536
      = strlen s.m_ble_data_src + body.length + 1 := by
    rw [List.length_append, List.length_singleton, Nat.mod_eq_of_lt (by omega)]
    omega
  have hL1 : strlen s.m_ble_data_src + body.length
      = (s.m_ble_data_src.take (strlen s.m_ble_data_src) ++ body).length :=
    (memcpy_snoc_prefix_length _ _ _ hfit).symm
  have hget : ∀ b, (memcpy s.m_ble_data_src (strlen s.m_ble_data_src) (body ++ [b])).getD
      (strlen s.m_ble_data_src + body.length) 0 = b := by
    intro b
    rw [memcpy_snoc _ _ _ _ hfit, hL1, getD_at_length]
  have hset : (memcpy s.m_ble_data_src (strlen s.m_ble_data_src) (body ++ [59])).set
      (strlen s.m_ble_data_src + body.length) 13
      = memcpy s.m_ble_data_src (strlen s.m_ble_data_src) (body ++ [13]) := by
    rw [memcpy_snoc _ _ _ _ hfit, memcpy_snoc _ _ _ _ hfit, hL1, set_at_length]
  show (let cur_len := strlen s.m_ble_data_src % 65536
    let src1 := memcpy s.m_ble_data_src cur_len (body ++ [last])
    let length := ((body ++ [last]).length + cur_len) % 65536
    let src2 := if src1.getD (length - 1) 0 = 59 then src1.set (length - 1) 13 else src1
    if src2.getD (length - 1) 0 ≠ 13 then { s with m_ble_data_src := src2 }
    else nus_complete env length src2 err s) = _
  simp only [hc, hL, Nat.add_sub_cancel, hget]
  by_cases h59 : last = 59
  · subst h59
    simp only [if_true, hset, hget, ne_eq, not_true_eq_false, if_false, true_or]
  · simp only [h59, if_false, hget, false_or, ne_eq]
    by_cases h13 : last = 13
    · subst h13
      simp only [not_true_eq_false, if_false, if_true]
    · simp only [h13, not_false_eq_true, if_true, if_false]

theorem nusReplies_nus_complete (env : Env X) (length : Nat) (src : List Nat) (err : Nat)
    (s : State X) :
    nusReplies (nus_complete env length src err s) =
      nusReplies s ++ [cstr (execute_atcmd env s.ext length src s.m_atcmd_resp_str).2] := by
  simp only [nusReplies, nus_complete, List.filterMap_append]
  split_ifs <;> simp [Output.nusReply?, take_strlen]

/-- C14: on the BLE transport, a delivery that fits the command buffer and ends in a
semicolon has exactly the effect of the same delivery ending in carriage return: in
both cases `execute_atcmd` (and so the parser) receives the same length and the same
buffer, in which the terminator is carriage return, and the same response is sent. -/
theorem C14_ble_semicolon_normalized (env : Env X) (text : List Nat) (err : Nat)
    (s : State X) (hsize : s.m_ble_data_src.length < 65536)
    (hfit : strlen s.m_ble_data_src + text.length + 1 ≤ s.m_ble_data_src.length) :
    nus_data_handler env (text ++ [59]) err s = nus_data_handler env (text ++ [13]) err s
      ∧ nus_data_handler env (text ++ [59]) err s =
        nus_complete env (strlen s.m_ble_data_src + text.length + 1)
          (memcpy s.m_ble_data_src (strlen s.m_ble_data_src) (text ++ [13])) err s
      ∧ nusReplies (nus_data_handler env (text ++ [59]) err s) =
        nusReplies s ++ [cstr (execute_atcmd env s.ext
          (strlen s.m_ble_data_src + text.length + 1)
          (memcpy s.m_ble_data_src (strlen s.m_ble_data_src) (text ++ [13]))
          s.m_atcmd_resp_str).2] := by
  have e59 := nus_data_handler_in_bounds env text 59 err s hsize hfit
  have e13 := nus_data_handler_in_bounds env text 13 err s hsize hfit
  rw [if_pos (Or.inl rfl)] at e59
  rw [if_pos (Or.inr rfl)] at e13
  refine ⟨by rw [e59, e13], e59, ?_⟩
  rw [e59, nusReplies_nus_complete]

/-- C14 on the concrete device: the command V delivered with either terminator. -/
theorem C14_ble_semicolon_normalized_witness :
    (sampleBoot 5).m_ble_data_src.length < 65536
      ∧ strlen (sampleBoot 5).m_ble_data_src + [86].length + 1
        ≤ (sampleBoot 5).m_ble_data_src.length
      ∧ (nus_data_handler sampleEnv ([86] ++ [59]) 0 (sampleBoot 5)
          = nus_data_handler sampleEnv ([86] ++ [13]) 0 (sampleBoot 5)
        ∧ nus_data_handler sampleEnv ([86] ++ [59]) 0 (sampleBoot 5) =
          nus_complete sampleEnv (strlen (sampleBoot 5).m_ble_data_src + [86].length + 1)
            (memcpy (sampleBoot 5).m_ble_data_src (strlen (sampleBoot 5).m_ble_data_src)
              ([86] ++ [13])) 0 (sampleBoot 5)
        ∧ nusReplies (nus_data_handler sampleEnv ([86] ++ [59]) 0 (sampleBoot 5)) =
          nusReplies (sampleBoot 5) ++ [cstr (execute_atcmd sampleEnv (sampleBoot 5).ext
            (strlen (sampleBoot 5).m_ble_data_src + [86].length + 1)
            (memcpy (sampleBoot 5).m_ble_data_src (strlen (sampleBoot 5).m_ble_data_src)
              ([86] ++ [13]))
            (sampleBoot 5).m_atcmd_resp_str).2]) :=
  ⟨by decide, by decide,
    C14_ble_semicolon_normalized sampleEnv [86] 0 (sampleBoot 5) (by decide) (by decide)⟩

/-- The reply of the concrete device to V with a semicolon over BLE is 1.2.0. -/
theorem nus_semicolon_example :
    nusReplies (nus_data_handler sampleEnv [86, 59] 0 (sampleBoot 5))
      = [[49, 46, 50, 46, 48]] := by
  decide

/-! ## The serial transport -/

theorem uart_feed_append (env : Env X) (a b : List Nat) (s : State X) :
    uart_feed env (a ++ b) s = uart_feed env b (uart_feed env a s) := by
  simp [uart_feed, List.foldl_append]

theorem uart_feed_cons (env : Env X) (b : Nat) (rest : List Nat) (s : State X) :
    uart_feed env (b :: rest) s =
      uart_feed env rest (uart_event_handle env (AppUartEvt.APP_UART_DATA_READY b) s) := rfl

/-- One serial data event while the incremented index does not wrap: the byte is stored,
and the line is completed when that byte is carriage return or the incremented index
reaches `APP_ATCMD_MAX_DATA_LEN`. -/
theorem uart_data_ready (env : Env X) (byte : Nat) (s : State X)
    (h : s.index + 1 < 65536) :
    uart_event_handle env (AppUartEvt.APP_UART_DATA_READY byte) s =
      if (s.data_array.set s.index byte).getD s.index 0 = 13
          ∨ s.index + 1 ≥ env.APP_ATCMD_MAX_DATA_LEN then
        uart_complete env (s.index + 1) (s.data_array.set s.index byte) s
      else { s with data_array := s.data_array.set s.index byte, index := s.index + 1 } := by
  show (let data := s.data_array.set s.index byte
    let index := (s.index + 1) % 65536
    if data.getD (index - 1) 0 = 13 ∨ index ≥ env.APP_ATCMD_MAX_DATA_LEN then
      uart_complete env index data s
    else { s with data_array := data, index := index }) = _
  simp only [Nat.mod_eq_of_lt h, Nat.add_sub_cancel]

theorem getD_set_self (l : List Nat) (i b d : Nat) :
    (l.set i b).getD i d = if i < l.length then b else d := by
  induction l generalizing i with
  | nil => simp
  | cons a as ih =>
    cases i with
    | zero => simp
    | succ j => simpa using ih j

/-- Bytes other than carriage return that do not fill the buffer are only stored. -/
theorem uart_feed_accumulate (env : Env X) (hmax : env.APP_ATCMD_MAX_DATA_LEN < 65536) :
    ∀ (bytes : List Nat) (s : State X), (∀ b ∈ bytes, b ≠ 13) →
      s.index + bytes.length < env.APP_ATCMD_MAX_DATA_LEN →
      uart_feed env bytes s =
        { s with data_array := memcpy s.data_array s.index bytes,
                 index := s.index + bytes.length } := by
  intro bytes
  induction bytes with
  | nil => intro s _ _; rfl
  | cons b rest ih =>
    intro s hcr hlen
    have hb : b ≠ 13 := hcr b (by simp)
    have hrest : ∀ c ∈ rest, c ≠ 13 := fun c hc => hcr c (by simp [hc])
    have hl : s.index + (rest.length + 1) < env.APP_ATCMD_MAX_DATA_LEN := by
      simpa using hlen
    have hstep : uart_event_handle env (AppUartEvt.APP_UART_DATA_READY b) s =
        { s with data_array := s.data_array.set s.index b, index := s.index + 1 } := by
      rw [uart_data_ready env b s (by omega), if_neg]
      rw [getD_set_self]
      intro hor
      rcases hor with h13 | hge
      · split at h13
        · exact hb h13
        · exact absurd h13 (by decide)
      · omega
    rw [uart_feed_cons, hstep, ih _ hrest (by show s.index + 1 + rest.length < _; omega)]
    show ({ s with data_array := memcpy (s.data_array.set s.index b) (s.index + 1) rest,
                   index := s.index + 1 + rest.length } : State X) = _
    rw [Nat.add_assoc, Nat.add_comm 1 rest.length]
    rfl

/-- A carriage return stored inside the buffer completes the line. -/
theorem uart_carriage_return (env : Env X) (s : State X)
    (hmax : env.APP_ATCMD_MAX_DATA_LEN < 65536)
    (hlen : s.data_array.length = env.APP_ATCMD_MAX_DATA_LEN)
    (hidx : s.index < env.APP_ATCMD_MAX_DATA_LEN) :
    uart_event_handle env (AppUartEvt.APP_UART_DATA_READY 13) s =
      uart_complete env (s.index + 1) (s.data_array.set s.index 13) s := by
  rw [uart_data_ready env 13 s (by omega), if_pos]
  left
  rw [getD_set_self, if_pos (by omega)]

theorem uartReplies_uart_complete (env : Env X) (index : Nat) (data : List Nat)
    (s : State X) :
    uartReplies (uart_complete env index data s) =
      uartReplies s ++ [cstr ((execute_atcmd env s.ext index data s.m_atcmd_resp_str).2.set
        (strlen (execute_atcmd env s.ext index data s.m_atcmd_resp_str).2) 10)] := by
  simp [uartReplies, uart_complete, List.filterMap_append, Output.uartReply?]

theorem memcpy_append (a b : List Nat) : ∀ (dst : List Nat) (off : Nat),
    memcpy dst off (a ++ b) = memcpy (memcpy dst off a) (off + a.length) b := by
  induction a with
  | nil => intro dst off; rfl
  | cons c rest ih =>
    intro dst off
    show memcpy (dst.set off c) (off + 1) (rest ++ b) = _
    rw [ih]
    show _ = memcpy (memcpy (dst.set off c) (off + 1) rest) (off + (rest.length + 1)) b
    rw [Nat.add_assoc, Nat.add_comm 1 rest.length]

/-- A line without inner carriage return that fits the buffer, fed byte by byte and
ended by carriage return, is executed once, on its own bytes and length. -/
theorem uart_feed_line (env : Env X) (text : List Nat) (s : State X)
    (hmax : env.APP_ATCMD_MAX_DATA_LEN < 65536)
    (hlen : s.data_array.length = env.APP_ATCMD_MAX_DATA_LEN)
    (hcr : ∀ b ∈ text, b ≠ 13)
    (hfit : s.index + text.length < env.APP_ATCMD_MAX_DATA_LEN) :
    uart_feed env (text ++ [13]) s =
      uart_complete env (s.index + text.length + 1)
        (memcpy s.data_array s.index (text ++ [13])) s := by
  rw [uart_feed_append, uart_feed_accumulate env hmax text s hcr hfit]
  show uart_event_handle env (AppUartEvt.APP_UART_DATA_READY 13) _ = _
  rw [uart_carriage_return env _ hmax (by rw [memcpy_length]; exact hlen) hfit, memcpy_append]
  rfl

/-- C15 (as stated) fails: on the concrete device the bytes V and semicolon fed to the
serial handler produce no reply at all, while V and carriage return produce the reply
1.2.0 and newline, so the two inputs do not yield the same response. -/
theorem C15_counterexample :
    uartReplies (uart_feed sampleEnv ([86] ++ [59]) (sampleBoot 5)) = []
      ∧ uartReplies (uart_feed sampleEnv ([86] ++ [13]) (sampleBoot 5))
        = [[49, 46, 50, 46, 48, 10]]
      ∧ ¬ (uartReplies (uart_feed sampleEnv ([86] ++ [59]) (sampleBoot 5))
        = uartReplies (uart_feed sampleEnv ([86] ++ [13]) (sampleBoot 5))) := by
  decide

/-- C15 (amended): on the serial transport a semicolon is not a terminator. For a
command text without carriage return and shorter than `APP_ATCMD_MAX_DATA_LEN - 1`,
fed from an empty accumulation buffer: followed by a semicolon, no command is executed
and no reply is sent, the semicolon is stored as one more byte and the index is the
text length plus one; followed by carriage return, the command is executed once on
those bytes and the reply is sent. -/
theorem C15_serial_semicolon_not_terminator (env : Env X) (text : List Nat) (s : State X)
    (hmax : env.APP_ATCMD_MAX_DATA_LEN < 65536)
    (hlen : s.data_array.length = env.APP_ATCMD_MAX_DATA_LEN)
    (hidx : s.index = 0)
    (hcr : ∀ b ∈ text, b ≠ 13)
    (hshort : text.length + 1 < env.APP_ATCMD_MAX_DATA_LEN) :
    uart_feed env (text ++ [59]) s =
        { s with data_array := memcpy s.data_array 0 (text ++ [59]),
                 index := text.length + 1 }
      ∧ uartReplies (uart_feed env (text ++ [59]) s) = uartReplies s
      ∧ uart_feed env (text ++ [13]) s =
        uart_complete env (text.length + 1) (memcpy s.data_array 0 (text ++ [13])) s
      ∧ uartReplies (uart_feed env (text ++ [13]) s) =
        uartReplies s ++ [cstr ((execute_atcmd env s.ext (text.length + 1)
            (memcpy s.data_array 0 (text ++ [13])) s.m_atcmd_resp_str).2.set
          (strlen (execute_atcmd env s.ext (text.length + 1)
            (memcpy s.data_array 0 (text ++ [13])) s.m_atcmd_resp_str).2) 10)] := by
  have hsemi : ∀ b ∈ text ++ [59], b ≠ 13 := by
    intro b hb
    rcases List.mem_append.1 hb with h | h
    · exact hcr b h
    · simp at h
      omega
  have e59 := uart_feed_accumulate env hmax (text ++ [59]) s hsemi
    (by rw [hidx]; simp; omega)
  have e13 := uart_feed_line env text s hmax hlen hcr (by rw [hidx]; omega)
  rw [hidx] at e59 e13
  simp only [Nat.zero_add, List.length_append, List.length_singleton] at e59 e13
  refine ⟨e59, by rw [e59]; rfl, e13, ?_⟩
  rw [e13, uartReplies_uart_complete]

/-! ## The two transports on one line -/

theorem strlen_padded (pre : List Nat) (k : Nat) (hpre : ∀ b ∈ pre, b ≠ 0) :
    strlen (pre ++ List.replicate k 0) = pre.length := by
  cases k with
  | zero => simp [strlen, cstr_of_no_zero pre hpre]
  | succ j => rw [List.replicate_succ, strlen, cstr_append_zero pre _ hpre]

theorem memcpy_padded (pre f : List Nat) (m : Nat) (h : pre.length + f.length ≤ m) :
    memcpy (pre ++ List.replicate (m - pre.length) 0) pre.length f
      = (pre ++ f) ++ List.replicate (m - (pre ++ f).length) 0 := by
  rw [memcpy_eq _ _ _ (by simp; omega)]
  simp [Nat.sub_sub]

theorem nus_deliver_cons (env : Env X) (f : List Nat × Nat) (rest : List (List Nat × Nat))
    (s : State X) :
    nus_deliver env (f :: rest) s = nus_deliver env rest (nus_data_handler env f.1 f.2 s) :=
  rfl

/-- Fragments of a line delivered to `nus_data_handler`, none of them ending the line,
followed by the fragment that ends in carriage return: the command is executed once,
on the whole line in a zero-padded buffer. -/
theorem nus_deliver_line (env : Env X) (hmax : env.APP_ATCMD_MAX_DATA_LEN < 65536)
    (lastBody : List Nat) (err : Nat) :
    ∀ (init : List (List Nat × Nat)) (pre line : List Nat) (s : State X),
      s.m_ble_data_src = pre ++ List.replicate (env.APP_ATCMD_MAX_DATA_LEN - pre.length) 0 →
      (∀ b ∈ pre, b ≠ 0) →
      (∀ f ∈ init, f.1 ≠ [] ∧ ∀ b ∈ f.1, b ≠ 0 ∧ b ≠ 13 ∧ b ≠ 59) →
      line = pre ++ (init.map Prod.fst).flatten ++ (lastBody ++ [13]) →
      line.length ≤ env.APP_ATCMD_MAX_DATA_LEN →
      nus_deliver env (init ++ [(lastBody ++ [13], err)]) s =
        nus_complete env line.length
          (line ++ List.replicate (env.APP_ATCMD_MAX_DATA_LEN - line.length) 0) err s := by
  intro init
  induction init with
  | nil =>
    intro pre line s hsrc hpre _ hline hlen
    have hl : line.length = pre.length + lastBody.length + 1 := by
      rw [hline]; simp; omega
    have hsl : strlen s.m_ble_data_src = pre.length := by
      rw [hsrc, strlen_padded pre _ hpre]
    have hslen : s.m_ble_data_src.length = env.APP_ATCMD_MAX_DATA_LEN := by
      rw [hsrc]; simp; omega
    show nus_data_handler env (lastBody ++ [13]) err s = _
    rw [nus_data_handler_in_bounds env lastBody 13 err s (by omega) (by omega),
      if_pos (Or.inr rfl), hsl, hsrc,
      memcpy_padded pre (lastBody ++ [13]) _ (by simp; omega)]
    have hline2 : line = pre ++ (lastBody ++ [13]) := by
      rw [hline]; simp
    rw [← hline2, ← hl]
  | cons f rest ih =>
    intro pre line s hsrc hpre hinit hline hlen
    obtain ⟨hfne, hfb⟩ := hinit f (by simp)
    have hrest : ∀ g ∈ rest, g.1 ≠ [] ∧ ∀ b ∈ g.1, b ≠ 0 ∧ b ≠ 13 ∧ b ≠ 59 :=
      fun g hg => hinit g (by simp [hg])
    obtain ⟨body, last, hf⟩ : ∃ body last, f.1 = body ++ [last] := by
      rcases List.eq_nil_or_concat f.1 with h | ⟨b, l, h⟩
      · exact absurd h hfne
      · exact ⟨b, l, by simpa using h⟩
    have hlast : last ≠ 0 ∧ last ≠ 13 ∧ last ≠ 59 := hfb last (by rw [hf]; simp)
    have hl : pre.length + f.1.length + 1 ≤ line.length := by
      rw [hline]; simp; omega
    have hfl : f.1.length = body.length + 1 := by rw [hf]; simp
    have hsl : strlen s.m_ble_data_src = pre.length := by
      rw [hsrc, strlen_padded pre _ hpre]
    have hslen : s.m_ble_data_src.length = env.APP_ATCMD_MAX_DATA_LEN := by
      rw [hsrc]; simp; omega
    have hstep : nus_data_handler env f.1 f.2 s =
        { s with m_ble_data_src :=
            ((pre ++ f.1) ++
              List.replicate (env.APP_ATCMD_MAX_DATA_LEN - (pre ++ f.1).length) 0) } := by
      rw [hf, nus_data_handler_in_bounds env body last f.2 s (by omega) (by omega),
        if_neg (by intro h; rcases h with h | h; exact hlast.2.2 h; exact hlast.2.1 h),
        hsl, hsrc, memcpy_padded pre (body ++ [last]) _ (by simp; omega)]
    have hpre2 : ∀ b ∈ pre ++ f.1, b ≠ 0 := by
      intro b hb
      rcases List.mem_append.1 hb with h | h
      · exact hpre b h
      · exact (hfb b h).1
    have hline2 : line = (pre ++ f.1) ++ (rest.map Prod.fst).flatten ++ (lastBody ++ [13]) := by
      rw [hline]; simp
    show nus_deliver env (f :: (rest ++ [(lastBody ++ [13], err)])) s = _
    rw [nus_deliver_cons, hstep, ih (pre ++ f.1) line _ rfl hpre2 hrest hline2 hlen]
    rfl

theorem execute_atcmd_local (env : Env X) (hparse : ParserReadsIndexBytes env) (x : X)
    (n : Nat) (d d' p : List Nat) (h : d.take n = d'.take n) :
    execute_atcmd env x n d p = execute_atcmd env x n d' p := by
  simp only [execute_atcmd, hparse x n d d' h]

/-- The newline the serial transport stores after a response that leaves room for it. -/
theorem newline_reply (r : List Nat) (n : Nat)
    (hform : r = cstr r ++ List.replicate (n + 1 - (cstr r).length) 0)
    (hfit : strlen r < n) : cstr (r.set (strlen r) 10) = cstr r ++ [10] := by
  have hnz := cstr_no_zero r
  unfold strlen at hfit ⊢
  generalize hR : cstr r = R at hform hnz hfit ⊢
  obtain ⟨k, hk⟩ : ∃ k, n + 1 - R.length = k + 2 := ⟨n - 1 - R.length, by omega⟩
  rw [hk, List.replicate_succ, List.replicate_succ] at hform
  rw [hform, set_at_length]
  have hnz2 : ∀ b ∈ R ++ [10], b ≠ 0 := by
    intro b hb
    rcases List.mem_append.1 hb with h | h
    · exact hnz b h
    · simp at h
      omega
  have e : R ++ 10 :: 0 :: List.replicate k 0 = (R ++ [10]) ++ 0 :: List.replicate k 0 := by
    simp
  rw [e, cstr_append_zero _ _ hnz2]

/-- Non-empty fragments that together spell a line ending in carriage return: the last
fragment ends in that carriage return and the others spell a prefix of the rest. -/
theorem split_last_fragment (frags : List (List Nat × Nat)) (body : List Nat)
    (hne : ∀ f ∈ frags, f.1 ≠ [])
    (hjoin : (frags.map Prod.fst).flatten = body ++ [13]) :
    ∃ init lb err, frags = init ++ [(lb ++ [13], err)]
      ∧ body = (init.map Prod.fst).flatten ++ lb := by
  rcases List.eq_nil_or_concat frags with h | ⟨init, fl, h⟩
  · rw [h] at hjoin
    simp at hjoin
  · have hfrags : frags = init ++ [fl] := by simpa using h
    have hflne : fl.1 ≠ [] := hne fl (by rw [hfrags]; simp)
    rcases List.eq_nil_or_concat fl.1 with h1 | ⟨lb, c, h1⟩
    · exact absurd h1 hflne
    · have hfl : fl.1 = lb ++ [c] := by simpa using h1
      rw [hfrags] at hjoin
      simp only [List.map_append, List.map_cons, List.map_nil, List.flatten_append,
        List.flatten_cons, List.flatten_nil, List.append_nil, hfl] at hjoin
      rw [← List.append_assoc] at hjoin
      have hinj := List.append_inj' hjoin rfl
      have hc : c = 13 := by simpa using hinj.2
      refine ⟨init, lb, fl.2, ?_, hinj.1.symm⟩
      rw [hfrags]
      congr 2
      rw [← hc, ← hfl]

/-- C16: a command line that ends in carriage return, contains no other carriage
return, semicolon or NUL byte and is shorter than `APP_ATCMD_MAX_DATA_LEN`. Fed byte by
byte to `uart_event_handle` (from accumulation index 0), the serial reply is R followed
by one newline; delivered to `nus_data_handler` as any sequence of non-empty fragments
(from an all-zero command buffer), there is exactly one BLE reply, R without newline,
and the BLE command buffer is all zero afterwards. R is the response of `execute_atcmd`
to the whole line. The parser is assumed to read only the bytes of the line, and R to
be shorter than `PSTORE_MAX_BLOCK`. -/
theorem C16_transports_agree_up_to_newline (env : Env X) (s : State X) (body : List Nat)
    (frags : List (List Nat × Nat))
    (hparse : ParserReadsIndexBytes env)
    (hmax : env.APP_ATCMD_MAX_DATA_LEN < 65536)
    (huart : s.data_array.length = env.APP_ATCMD_MAX_DATA_LEN)
    (hidx : s.index = 0)
    (hble : s.m_ble_data_src = List.replicate env.APP_ATCMD_MAX_DATA_LEN 0)
    (hresp : s.m_atcmd_resp_str.length = env.PSTORE_MAX_BLOCK + 1)
    (hbody : ∀ b ∈ body, b ≠ 0 ∧ b ≠ 13 ∧ b ≠ 59)
    (hshort : (body ++ [13]).length < env.APP_ATCMD_MAX_DATA_LEN)
    (hne : ∀ f ∈ frags, f.1 ≠ [])
    (hjoin : (frags.map Prod.fst).flatten = body ++ [13])
    (hfit : (lineResponse env s (body ++ [13])).length < env.PSTORE_MAX_BLOCK) :
    uartReplies (uart_feed env (body ++ [13]) s)
        = uartReplies s ++ [lineResponse env s (body ++ [13]) ++ [10]]
      ∧ nusReplies (nus_deliver env frags s)
        = nusReplies s ++ [lineResponse env s (body ++ [13])]
      ∧ (nus_deliver env frags s).m_ble_data_src
        = List.replicate env.APP_ATCMD_MAX_DATA_LEN 0 := by
  have hlen : (body ++ [13]).length = body.length + 1 := by simp
  obtain ⟨init, lb, err, hfrags, hb⟩ := split_last_fragment frags body hne hjoin
  have hinit : ∀ f ∈ init, f.1 ≠ [] ∧ ∀ b ∈ f.1, b ≠ 0 ∧ b ≠ 13 ∧ b ≠ 59 := by
    intro f hf
    refine ⟨hne f (by rw [hfrags]; simp [hf]), ?_⟩
    intro b hbf
    apply hbody b
    rw [hb]
    apply List.mem_append_left
    rw [List.mem_flatten]
    exact ⟨f.1, List.mem_map_of_mem _ hf, hbf⟩
  have hline : body ++ [13] = [] ++ (init.map Prod.fst).flatten ++ (lb ++ [13]) := by
    rw [hb]; simp
  have hnus := nus_deliver_line env hmax lb err init [] (body ++ [13]) s
    (by rw [hble]; simp) (by simp) hinit hline (by omega)
  rw [← hfrags] at hnus
  refine ⟨?_, ?_, ?_⟩
  · have hu := uart_feed_line env body s hmax huart (fun b h => (hbody b h).2.1)
      (by rw [hidx]; omega)
    rw [hidx] at hu
    simp only [Nat.zero_add] at hu
    have hbuf : memcpy s.data_array 0 (body ++ [13])
        = (body ++ [13]) ++ s.data_array.drop (body ++ [13]).length := by
      rw [memcpy_eq _ _ _ (by omega)]
      simp
    have hloc : execute_atcmd env s.ext (body.length + 1)
          (memcpy s.data_array 0 (body ++ [13])) s.m_atcmd_resp_str
        = execute_atcmd env s.ext (body ++ [13]).length
          ((body ++ [13]) ++ List.replicate
            (env.APP_ATCMD_MAX_DATA_LEN - (body ++ [13]).length) 0) s.m_atcmd_resp_str := by
      rw [hbuf, hlen]
      apply execute_atcmd_local env hparse
      rw [← hlen, List.take_left, List.take_left]
    rw [hu, uartReplies_uart_complete, hloc]
    have hfit2 : strlen (execute_atcmd env s.ext (body ++ [13]).length
        ((body ++ [13]) ++ List.replicate
          (env.APP_ATCMD_MAX_DATA_LEN - (body ++ [13]).length) 0) s.m_atcmd_resp_str).2
        < env.PSTORE_MAX_BLOCK := hfit
    have hnl := newline_reply _ env.PSTORE_MAX_BLOCK
      (execute_atcmd_zero_tail env s.ext (body ++ [13]).length
        ((body ++ [13]) ++ List.replicate
          (env.APP_ATCMD_MAX_DATA_LEN - (body ++ [13]).length) 0) s.m_atcmd_resp_str hresp)
      hfit2
    rw [hnl]
    rfl
  · rw [hnus, nusReplies_nus_complete]
    rfl
  · rw [hnus]
    show memset _ 0 env.APP_ATCMD_MAX_DATA_LEN = _
    exact memset_full _ 0 _ (by simp; omega)

theorem sampleEnv_parser_reads_index_bytes : ParserReadsIndexBytes sampleEnv := by
  intro x n d d' h
  show sampleParse x n d = sampleParse x n d'
  simp only [sampleParse, h]

/-- C15 (amended) on the concrete device: the command V. -/
theorem C15_serial_semicolon_not_terminator_witness :
    sampleEnv.APP_ATCMD_MAX_DATA_LEN < 65536
      ∧ (sampleBoot 5).data_array.length = sampleEnv.APP_ATCMD_MAX_DATA_LEN
      ∧ (sampleBoot 5).index = 0
      ∧ (∀ b ∈ [86], b ≠ 13)
      ∧ [86].length + 1 < sampleEnv.APP_ATCMD_MAX_DATA_LEN
      ∧ (uart_feed sampleEnv ([86] ++ [59]) (sampleBoot 5) =
          { sampleBoot 5 with
            data_array := memcpy (sampleBoot 5).data_array 0 ([86] ++ [59]),
            index := [86].length + 1 }
        ∧ uartReplies (uart_feed sampleEnv ([86] ++ [59]) (sampleBoot 5))
          = uartReplies (sampleBoot 5)
        ∧ uart_feed sampleEnv ([86] ++ [13]) (sampleBoot 5) =
          uart_complete sampleEnv ([86].length + 1)
            (memcpy (sampleBoot 5).data_array 0 ([86] ++ [13])) (sampleBoot 5)
        ∧ uartReplies (uart_feed sampleEnv ([86] ++ [13]) (sampleBoot 5)) =
          uartReplies (sampleBoot 5) ++ [cstr ((execute_atcmd sampleEnv (sampleBoot 5).ext
              ([86].length + 1) (memcpy (sampleBoot 5).data_array 0 ([86] ++ [13]))
              (sampleBoot 5).m_atcmd_resp_str).2.set
            (strlen (execute_atcmd sampleEnv (sampleBoot 5).ext ([86].length + 1)
              (memcpy (sampleBoot 5).data_array 0 ([86] ++ [13]))
              (sampleBoot 5).m_atcmd_resp_str).2) 10)]) :=
  ⟨by decide, by decide, by decide, by decide, by decide,
    C15_serial_semicolon_not_terminator sampleEnv [86] (sampleBoot 5) (by decide) (by decide)
      (by decide) (by decide) (by decide)⟩

/-- C16 on the concrete device: the line V, 1, carriage return, delivered over BLE as
the fragments V and 1, carriage return. -/
theorem C16_transports_agree_up_to_newline_witness :
    ParserReadsIndexBytes sampleEnv
      ∧ sampleEnv.APP_ATCMD_MAX_DATA_LEN < 65536
      ∧ (sampleBoot 5).data_array.length = sampleEnv.APP_ATCMD_MAX_DATA_LEN
      ∧ (sampleBoot 5).index = 0
      ∧ (sampleBoot 5).m_ble_data_src = List.replicate sampleEnv.APP_ATCMD_MAX_DATA_LEN 0
      ∧ (sampleBoot 5).m_atcmd_resp_str.length = sampleEnv.PSTORE_MAX_BLOCK + 1
      ∧ (∀ b ∈ [86, 49], b ≠ 0 ∧ b ≠ 13 ∧ b ≠ 59)
      ∧ ([86, 49] ++ [13]).length < sampleEnv.APP_ATCMD_MAX_DATA_LEN
      ∧ (∀ f ∈ [([86], 0), ([49, 13], 0)], f.1 ≠ [])
      ∧ (([([86], 0), ([49, 13], 0)] : List (List Nat × Nat)).map Prod.fst).flatten
        = [86, 49] ++ [13]
      ∧ (lineResponse sampleEnv (sampleBoot 5) ([86, 49] ++ [13])).length
        < sampleEnv.PSTORE_MAX_BLOCK
      ∧ (uartReplies (uart_feed sampleEnv ([86, 49] ++ [13]) (sampleBoot 5))
          = uartReplies (sampleBoot 5)
            ++ [lineResponse sampleEnv (sampleBoot 5) ([86, 49] ++ [13]) ++ [10]]
        ∧ nusReplies (nus_deliver sampleEnv [([86], 0), ([49, 13], 0)] (sampleBoot 5))
          = nusReplies (sampleBoot 5)
            ++ [lineResponse sampleEnv (sampleBoot 5) ([86, 49] ++ [13])]
        ∧ (nus_deliver sampleEnv [([86], 0), ([49, 13], 0)] (sampleBoot 5)).m_ble_data_src
          = List.replicate sampleEnv.APP_ATCMD_MAX_DATA_LEN 0) :=
  ⟨sampleEnv_parser_reads_index_bytes, by decide, by decide, by decide, by decide, by decide,
    by decide, by decide, by decide, by decide, by decide,
    C16_transports_agree_up_to_newline sampleEnv (sampleBoot 5) [86, 49]
      [([86], 0), ([49, 13], 0)] sampleEnv_parser_reads_index_bytes (by decide) (by decide)
      (by decide) (by decide) (by decide) (by decide) (by decide) (by decide) (by decide)
      (by decide)⟩

/-- The replies of the concrete device to the line V, 1, carriage return on both
transports: 1.2.0 with a newline on the serial line, 1.2.0 over BLE. -/
theorem transports_example :
    uartReplies (uart_feed sampleEnv [86, 49, 13] (sampleBoot 5)) = [[49, 46, 50, 46, 48, 10]]
      ∧ nusReplies (nus_deliver sampleEnv [([86], 0), ([49, 13], 0)] (sampleBoot 5))
        = [[49, 46, 50, 46, 48]] := by
  decide

/-! ## Frame of the rotation counter -/

theorem uart_event_handle_counter (env : Env X) (e : AppUartEvt) (s : State X) :
    (uart_event_handle env e s).m_counter_ticks = s.m_counter_ticks := by
  cases e with
  | APP_UART_DATA_READY byte =>
    simp only [uart_event_handle]
    split <;> rfl
  | APP_UART_COMMUNICATION_ERROR => rfl
  | APP_UART_FIFO_ERROR => rfl
  | other => rfl

theorem nus_data_handler_counter (env : Env X) (d : List Nat) (err : Nat) (s : State X) :
    (nus_data_handler env d err s).m_counter_ticks = s.m_counter_ticks := by
  simp only [nus_data_handler]
  split_ifs <;> rfl

theorem rotationCount_sleep_mode_enter (env : Env X) (s : State X) :
    rotationCount (sleep_mode_enter env s) = rotationCount s + 1 := by
  simp [rotationCount, sleep_mode_enter, advertising_reinit_out, List.countP_append,
    Output.isRotation]

/-- An event that performs no rotation leaves the rotation counter as it was. -/
theorem step_counter_of_no_rotation (env : Env X) (s : State X) (e : Event)
    (h : rotationCount (step env s e) = rotationCount s) :
    (step env s e).m_counter_ticks = s.m_counter_ticks := by
  cases e with
  | adv_evt e => cases e <;> rfl
  | ble_evt e => cases e <;> rfl
  | bsp_evt e =>
    cases e with
    | BSP_EVENT_SLEEP =>
      have h1 := rotationCount_sleep_mode_enter env s
      have h2 : rotationCount (sleep_mode_enter env s) = rotationCount s := h
      omega
    | BSP_EVENT_DISCONNECT => rfl
    | BSP_EVENT_WHITELIST_OFF => rfl
    | other => rfl
  | radio b =>
    cases b with
    | false => rfl
    | true =>
      by_cases h0 : s.loop = 0
      · by_cases hr : s.m_adv_reinit = 0
        · show (SWI1_IRQHandler env true s).m_counter_ticks = _
          simp [SWI1_IRQHandler, h0, hr]
        · have hfire := tick_fire env s h0 hr
          have h2 : rotationCount (SWI1_IRQHandler env true s) = rotationCount s := h
          rw [hfire, rotationCount_advertising_reinit] at h2
          have h3 : rotationCount { s with loop := 10 } = rotationCount s := rfl
          omega
      · show (SWI1_IRQHandler env true s).m_counter_ticks = _
        rw [tick_count_down env s h0]
  | uart e => exact uart_event_handle_counter env e s
  | nus d err => exact nus_data_handler_counter env d err s
  | call_advertising_init => rfl
  | call_advertising_reinit =>
    have h1 := rotationCount_advertising_reinit env s
    have h2 : rotationCount (advertising_reinit env s) = rotationCount s := h
    omega
  | call_sleep_mode_enter =>
    have h1 := rotationCount_sleep_mode_enter env s
    have h2 : rotationCount (sleep_mode_enter env s) = rotationCount s := h
    omega
  | call_execute_atcmd index data => rfl

/-- C17: `m_counter_ticks` is left unchanged by a scheduler tick with `radio_evt` false,
by one that finds a non-zero down-counter, by one taken while the rotating flag is
clear, by `advertising_init` and the whole of `on_adv_evt` (idle transition included),
by connect and disconnect events, and by command execution directly, on the serial
transport, and on the BLE transport for every delivery that stays inside the command
buffer; in general by every such event during which no rotation is performed. -/
theorem C17_counter_changes_only_in_rotation (env : Env X) (s : State X) :
    (SWI1_IRQHandler env false s).m_counter_ticks = s.m_counter_ticks
      ∧ (s.loop ≠ 0 → (SWI1_IRQHandler env true s).m_counter_ticks = s.m_counter_ticks)
      ∧ (s.m_adv_reinit = 0 →
        (SWI1_IRQHandler env true s).m_counter_ticks = s.m_counter_ticks)
      ∧ (advertising_init env s).m_counter_ticks = s.m_counter_ticks
      ∧ (∀ e, (on_adv_evt env e s).m_counter_ticks = s.m_counter_ticks)
      ∧ (∀ e, (on_ble_evt e s).m_counter_ticks = s.m_counter_ticks)
      ∧ (∀ e, (uart_event_handle env e s).m_counter_ticks = s.m_counter_ticks)
      ∧ (∀ d err, nusInBounds s d = true →
        (nus_data_handler env d err s).m_counter_ticks = s.m_counter_ticks)
      ∧ (∀ index data,
        (step env s (Event.call_execute_atcmd index data)).m_counter_ticks
          = s.m_counter_ticks)
      ∧ (∀ e, Event.inBounds s e = true → rotationCount (step env s e) = rotationCount s →
        (step env s e).m_counter_ticks = s.m_counter_ticks) := by
  refine ⟨rfl, ?_, ?_, rfl, ?_, ?_, fun e => uart_event_handle_counter env e s,
    fun d err _ => nus_data_handler_counter env d err s, fun _ _ => rfl,
    fun e _ h => step_counter_of_no_rotation env s e h⟩
  · intro h0
    rw [tick_count_down env s h0]
  · intro hr
    by_cases h0 : s.loop = 0
    · simp [SWI1_IRQHandler, h0, hr]
    · rw [tick_count_down env s h0]
  · intro e
    cases e <;> rfl
  · intro e
    cases e <;> rfl

/-- C17 on the concrete device at start-up (down-counter 10, rotating flag clear), with
the command V, carriage return delivered over BLE. -/
theorem C17_counter_changes_only_in_rotation_witness :
    (sampleBoot 5).loop ≠ 0
      ∧ (sampleBoot 5).m_adv_reinit = 0
      ∧ nusInBounds (sampleBoot 5) [86, 13] = true
      ∧ Event.inBounds (sampleBoot 5) (Event.nus [86, 13] 0) = true
      ∧ rotationCount (step sampleEnv (sampleBoot 5) (Event.nus [86, 13] 0))
        = rotationCount (sampleBoot 5)
      ∧ (SWI1_IRQHandler sampleEnv false (sampleBoot 5)).m_counter_ticks
        = (sampleBoot 5).m_counter_ticks
      ∧ (SWI1_IRQHandler sampleEnv true (sampleBoot 5)).m_counter_ticks
        = (sampleBoot 5).m_counter_ticks
      ∧ (advertising_init sampleEnv (sampleBoot 5)).m_counter_ticks
        = (sampleBoot 5).m_counter_ticks
      ∧ (nus_data_handler sampleEnv [86, 13] 0 (sampleBoot 5)).m_counter_ticks
        = (sampleBoot 5).m_counter_ticks
      ∧ (step sampleEnv (sampleBoot 5) (Event.nus [86, 13] 0)).m_counter_ticks
        = (sampleBoot 5).m_counter_ticks :=
  have h := C17_counter_changes_only_in_rotation sampleEnv (sampleBoot 5)
  ⟨by decide, by decide, by decide, by decide, by decide, h.1, h.2.1 (by decide),
    h.2.2.2.1, h.2.2.2.2.2.2.2.1 [86, 13] 0 (by decide),
    h.2.2.2.2.2.2.2.2.2 (Event.nus [86, 13] 0) (by decide) (by decide)⟩

/-! ## The serial accumulation index -/

/-- The serial handler keeps its index below `APP_ATCMD_MAX_DATA_LEN` and the size of
its buffer. -/
theorem uart_event_handle_index (env : Env X) (e : AppUartEvt) (s : State X)
    (hidx : s.index < env.APP_ATCMD_MAX_DATA_LEN) :
    (uart_event_handle env e s).index < env.APP_ATCMD_MAX_DATA_LEN
      ∧ (uart_event_handle env e s).data_array.length = s.data_array.length := by
  cases e with
  | APP_UART_DATA_READY byte =>
    simp only [uart_event_handle]
    split
    · exact ⟨by show 0 < _; omega, by simp⟩
    · rename_i hcond
      refine ⟨?_, by simp⟩
      show (s.index + 1) % 65536 < _
      have hn : ¬ (s.index + 1) % 65536 ≥ env.APP_ATCMD_MAX_DATA_LEN :=
        fun hge => hcond (Or.inr hge)
      omega
  | APP_UART_COMMUNICATION_ERROR => exact ⟨hidx, rfl⟩
  | APP_UART_FIFO_ERROR => exact ⟨hidx, rfl⟩
  | other => exact ⟨hidx, rfl⟩

theorem nus_data_handler_index (env : Env X) (d : List Nat) (err : Nat) (s : State X) :
    (nus_data_handler env d err s).index = s.index
      ∧ (nus_data_handler env d err s).data_array = s.data_array := by
  simp only [nus_data_handler]
  split_ifs <;> exact ⟨rfl, rfl⟩

theorem SWI1_IRQHandler_index (env : Env X) (b : Bool) (s : State X) :
    (SWI1_IRQHandler env b s).index = s.index
      ∧ (SWI1_IRQHandler env b s).data_array = s.data_array := by
  unfold SWI1_IRQHandler
  split
  · split
    · simp only []
      split <;> exact ⟨rfl, rfl⟩
    · exact ⟨rfl, rfl⟩
  · exact ⟨rfl, rfl⟩

theorem step_index (env : Env X) (s : State X) (e : Event)
    (hidx : s.index < env.APP_ATCMD_MAX_DATA_LEN) :
    (step env s e).index < env.APP_ATCMD_MAX_DATA_LEN
      ∧ (step env s e).data_array.length = s.data_array.length := by
  cases e with
  | adv_evt e => cases e <;> exact ⟨hidx, rfl⟩
  | ble_evt e => cases e <;> exact ⟨hidx, rfl⟩
  | bsp_evt e => cases e <;> exact ⟨hidx, rfl⟩
  | radio b =>
    have h := SWI1_IRQHandler_index env b s
    show (SWI1_IRQHandler env b s).index < _ ∧ (SWI1_IRQHandler env b s).data_array.length = _
    rw [h.1, h.2]
    exact ⟨hidx, rfl⟩
  | uart e => exact uart_event_handle_index env e s hidx
  | nus d err =>
    have h := nus_data_handler_index env d err s
    show (nus_data_handler env d err s).index < _
      ∧ (nus_data_handler env d err s).data_array.length = _
    rw [h.1, h.2]
    exact ⟨hidx, rfl⟩
  | call_advertising_init => exact ⟨hidx, rfl⟩
  | call_advertising_reinit => exact ⟨hidx, rfl⟩
  | call_sleep_mode_enter => exact ⟨hidx, rfl⟩
  | call_execute_atcmd index data => exact ⟨hidx, rfl⟩

theorem run_index (env : Env X) (events : List Event) :
    ∀ s : State X, s.index < env.APP_ATCMD_MAX_DATA_LEN →
      (run env s events).index < env.APP_ATCMD_MAX_DATA_LEN
        ∧ (run env s events).data_array.length = s.data_array.length := by
  induction events with
  | nil => intro s h; exact ⟨h, rfl⟩
  | cons e es ih =>
    intro s h
    have h1 := step_index env s e h
    have h2 := ih (step env s e) h1.1
    exact ⟨h2.1, by rw [← h1.2]; exact h2.2⟩

/-- A line that fills the buffer without carriage return is executed at that length. -/
theorem uart_feed_full (env : Env X) (bytes : List Nat) (s : State X)
    (hmax : env.APP_ATCMD_MAX_DATA_LEN < 65536)
    (hlen : s.data_array.length = env.APP_ATCMD_MAX_DATA_LEN)
    (hidx : s.index = 0)
    (hpos : 0 < env.APP_ATCMD_MAX_DATA_LEN)
    (hbytes : bytes.length = env.APP_ATCMD_MAX_DATA_LEN)
    (hcr : ∀ b ∈ bytes, b ≠ 13) :
    uart_feed env bytes s = uart_complete env env.APP_ATCMD_MAX_DATA_LEN bytes s := by
  obtain ⟨init, last, hb⟩ : ∃ init last, bytes = init ++ [last] := by
    rcases List.eq_nil_or_concat bytes with h | ⟨i, l, h⟩
    · rw [h] at hbytes
      simp at hbytes
      omega
    · exact ⟨i, l, by simpa using h⟩
  have hil : init.length + 1 = env.APP_ATCMD_MAX_DATA_LEN := by
    rw [← hbytes, hb]; simp
  have hinit : ∀ b ∈ init, b ≠ 13 := fun b h => hcr b (by rw [hb]; simp [h])
  have hacc := uart_feed_accumulate env hmax init s hinit (by rw [hidx]; omega)
  have hfull : memcpy s.data_array 0 (init ++ [last]) = init ++ [last] := by
    rw [memcpy_eq _ _ _ (by simp; omega)]
    simp
    omega
  rw [hb, uart_feed_append, hacc]
  show uart_event_handle env (AppUartEvt.APP_UART_DATA_READY last) _ = _
  rw [uart_data_ready env last _ (by show s.index + init.length + 1 < 65536; omega),
    if_pos (Or.inr (by show s.index + init.length + 1 ≥ _; omega))]
  show uart_complete env (s.index + init.length + 1)
    (memcpy (memcpy s.data_array s.index init) (s.index + init.length) [last]) _ = _
  rw [← memcpy_append, hidx, hfull, Nat.zero_add, hil]
  rfl

/-- C18: from accumulation index 0, after any sequence of events the index of
`uart_event_handle` is below `APP_ATCMD_MAX_DATA_LEN`, the size its buffer keeps, so the
received byte is always stored inside the buffer; and `APP_ATCMD_MAX_DATA_LEN` bytes
without carriage return are executed as one command of that length, after which the
index is 0 again. -/
theorem C18_uart_index_in_bounds (env : Env X) (s : State X) (events : List Event)
    (bytes : List Nat)
    (hmax : env.APP_ATCMD_MAX_DATA_LEN < 65536)
    (hlen : s.data_array.length = env.APP_ATCMD_MAX_DATA_LEN)
    (hidx : s.index = 0)
    (hpos : 0 < env.APP_ATCMD_MAX_DATA_LEN)
    (hbytes : bytes.length = env.APP_ATCMD_MAX_DATA_LEN)
    (hcr : ∀ b ∈ bytes, b ≠ 13) :
    (run env s events).index < env.APP_ATCMD_MAX_DATA_LEN
      ∧ (run env s events).index < (run env s events).data_array.length
      ∧ uart_feed env bytes s = uart_complete env env.APP_ATCMD_MAX_DATA_LEN bytes s
      ∧ uartReplies (uart_feed env bytes s) =
        uartReplies s ++ [cstr ((execute_atcmd env s.ext env.APP_ATCMD_MAX_DATA_LEN bytes
            s.m_atcmd_resp_str).2.set
          (strlen (execute_atcmd env s.ext env.APP_ATCMD_MAX_DATA_LEN bytes
            s.m_atcmd_resp_str).2) 10)]
      ∧ (uart_feed env bytes s).index = 0 := by
  have hrun := run_index env events s (by rw [hidx]; exact hpos)
  have hfull := uart_feed_full env bytes s hmax hlen hidx hpos hbytes hcr
  refine ⟨hrun.1, by rw [hrun.2, hlen]; exact hrun.1, hfull, ?_, by rw [hfull]; rfl⟩
  rw [hfull, uartReplies_uart_complete]

/-- C18 on the concrete device (buffer of 20 bytes): twenty letters A, after some
earlier serial bytes and scheduler ticks. -/
theorem C18_uart_index_in_bounds_witness :
    sampleEnv.APP_ATCMD_MAX_DATA_LEN < 65536
      ∧ (sampleBoot 5).data_array.length = sampleEnv.APP_ATCMD_MAX_DATA_LEN
      ∧ (sampleBoot 5).index = 0
      ∧ 0 < sampleEnv.APP_ATCMD_MAX_DATA_LEN
      ∧ (List.replicate 20 65).length = sampleEnv.APP_ATCMD_MAX_DATA_LEN
      ∧ (∀ b ∈ List.replicate 20 65, b ≠ 13)
      ∧ ((run sampleEnv (sampleBoot 5)
            [Event.uart (AppUartEvt.APP_UART_DATA_READY 86), Event.radio true,
              Event.uart (AppUartEvt.APP_UART_DATA_READY 59)]).index
          < sampleEnv.APP_ATCMD_MAX_DATA_LEN
        ∧ (run sampleEnv (sampleBoot 5)
            [Event.uart (AppUartEvt.APP_UART_DATA_READY 86), Event.radio true,
              Event.uart (AppUartEvt.APP_UART_DATA_READY 59)]).index
          < (run sampleEnv (sampleBoot 5)
            [Event.uart (AppUartEvt.APP_UART_DATA_READY 86), Event.radio true,
              Event.uart (AppUartEvt.APP_UART_DATA_READY 59)]).data_array.length
        ∧ uart_feed sampleEnv (List.replicate 20 65) (sampleBoot 5)
          = uart_complete sampleEnv sampleEnv.APP_ATCMD_MAX_DATA_LEN (List.replicate 20 65)
            (sampleBoot 5)
        ∧ uartReplies (uart_feed sampleEnv (List.replicate 20 65) (sampleBoot 5)) =
          uartReplies (sampleBoot 5) ++ [cstr ((execute_atcmd sampleEnv (sampleBoot 5).ext
              sampleEnv.APP_ATCMD_MAX_DATA_LEN (List.replicate 20 65)
              (sampleBoot 5).m_atcmd_resp_str).2.set
            (strlen (execute_atcmd sampleEnv (sampleBoot 5).ext
              sampleEnv.APP_ATCMD_MAX_DATA_LEN (List.replicate 20 65)
              (sampleBoot 5).m_atcmd_resp_str).2) 10)]
        ∧ (uart_feed sampleEnv (List.replicate 20 65) (sampleBoot 5)).index = 0) :=
  ⟨by decide, by decide, by decide, by decide, by decide, by decide,
    C18_uart_index_in_bounds sampleEnv (sampleBoot 5)
      [Event.uart (AppUartEvt.APP_UART_DATA_READY 86), Event.radio true,
        Event.uart (AppUartEvt.APP_UART_DATA_READY 59)]
      (List.replicate 20 65) (by decide) (by decide) (by decide) (by decide) (by decide)
      (by decide)⟩

end Beacon
